import Mathlib

/-!
Verification development for the multi-agent ICP research orchestrator.

The development shallowly embeds two subsystems of the repository:

1. The agent coordination hub (src/lib/multi-agent/base-agent.ts,
   src/lib/multi-agent/agent-hub.ts and the direct-call variant of the hub
   in src/unnamed/part_001): agent records, capability matching, the
   scheduling comparator, the two-phase coordinateICPAnalysis pipeline, and
   the JSON-array parsers of the ICP synthesis agent (src/unnamed/part_004).

2. The LangGraph phase state machine (src/unnamed/part_007): the state
   record with its channel reducers, the node handlers (understand, plan,
   search, scrape, analyze, synthesize, handleError, complete), the
   conditional edges, and a fuelled run function.

External effects (LLM calls, web retrieval, scraping) are suspension points
whose outcomes are supplied by explicit oracle arguments; everything the
repository computes around those outcomes is embedded from the source.
Dates/timestamps and log strings are not modelled; events are modelled by
their type and agentId fields, which is all the verified properties inspect.
-/

namespace MultiAgent

/-- Status of an agent, from the Agent interface in types.ts
(idle | busy | error). -/
inductive AgentStatus where
  | idle
  | busy
  | error
deriving DecidableEq

/-- Message type tag of AgentMessage (request | response | error | status). -/
inductive MessageType where
  | request
  | response
  | error
  | status
deriving DecidableEq

/-- Message priority of AgentMessage (low | medium | high | critical). -/
inductive MessagePriority where
  | low
  | medium
  | high
  | critical
deriving DecidableEq

/-- Event type tag of AgentEvent in types.ts. The source spells these as
kebab-case strings (agent-started, agent-completed, agent-error, data-shared,
task-assigned, task-completed). -/
inductive AgentEventType where
  | agentStarted
  | agentCompleted
  | agentError
  | dataShared
  | taskAssigned
  | taskCompleted
deriving DecidableEq

/-- Model of AgentEvent: type and agentId. The timestamp, message and data
fields are not modelled (wall-clock dates and log strings). -/
structure AgentEvent where
  type : AgentEventType
  agentId : String
deriving DecidableEq

/-- Model of AgentCapability from types.ts. estimatedDuration is in
milliseconds. -/
structure AgentCapability where
  name : String
  description : String
  inputTypes : List String
  outputTypes : List String
  estimatedDuration : Nat
deriving DecidableEq

/-- Result of one executeTask call. Agent outputs are `unknown` in the
source; the hub only inspects a numeric confidence field through shallow
inspection (calculateOverallConfidence), so the model keeps an optional
confidence and an otherwise opaque payload. -/
structure TaskResult where
  confidence : Option ℚ
  payload : String
deriving DecidableEq

/-- Task input shapes that coordinateICPAnalysis actually constructs:
the five gathering tasks carry the query and the initial sources, the
phase-2 discovery task carries the query plus three merged phase-1
results. -/
inductive TaskInput where
  | gather (query : String) (sources : List String)
  | discovery (query : String)
      (customerIntelligence marketResearch firmographicData : Option TaskResult)
deriving DecidableEq

/-- Task status tag of AgentTask (pending | in_progress | completed |
failed). -/
inductive TaskStatus where
  | pending
  | inProgress
  | completed
  | failed
deriving DecidableEq

/-- Model of AgentTask from types.ts. createdAt/completedAt timestamps are
not modelled. -/
structure AgentTask where
  id : String
  agentId : String
  type : String
  status : TaskStatus
  input : TaskInput
  output : Option TaskResult
  priority : Int
deriving DecidableEq

/-- Payload of a request AgentMessage as constructed by assignTask:
taskType, input and an optional numeric priority. -/
structure MessagePayload where
  taskType : String
  input : TaskInput
  priority : Option Int
deriving DecidableEq

/-- Model of AgentMessage from types.ts. The source field names are from/to;
from is a Lean keyword, hence msgFrom/msgTo. The timestamp is not
modelled. -/
structure AgentMessage where
  id : String
  msgFrom : String
  msgTo : String
  type : MessageType
  payload : MessagePayload
  priority : MessagePriority
deriving DecidableEq

/-- Model of the Agent interface from types.ts: the status record embedded
in every BaseAgent and returned by getStatus(). -/
structure Agent where
  id : String
  name : String
  description : String
  capabilities : List AgentCapability
  status : AgentStatus
  currentTask : Option AgentTask
  messageQueue : List AgentMessage
deriving DecidableEq

/-- Model of the BaseAgent class state: the embedded Agent record plus the
class-private messageQueue field (distinct from agent.messageQueue). The
llm handles and event callbacks are external; emitted events are returned
by the operations below. -/
structure BaseAgent where
  agent : Agent
  messageQueue : List AgentMessage
deriving DecidableEq

/-- BaseAgent constructor: the embedded agent starts idle with an empty
agent.messageQueue, and the private queue starts empty. -/
def mkBaseAgent (agentId name description : String)
    (capabilities : List AgentCapability) : BaseAgent :=
  { agent :=
      { id := agentId
        name := name
        description := description
        capabilities := capabilities
        status := AgentStatus.idle
        currentTask := none
        messageQueue := [] }
    messageQueue := [] }

/-- BaseAgent.getStatus returns a copy of the embedded agent record (value
semantics in the model). -/
def BaseAgent.getStatus (b : BaseAgent) : Agent := b.agent

/-- BaseAgent.canHandleTask: true iff some capability lists the task type
among its inputTypes. -/
def BaseAgent.canHandleTask (b : BaseAgent) (taskType : String) : Bool :=
  b.agent.capabilities.any (fun c => c.inputTypes.contains taskType)

/-- BaseAgent.handleRequest: sets status busy, emits task-assigned, builds
a task from the message payload (priority defaults to 1, and a zero
priority is also replaced by 1 because the source uses payload.priority ||
1), runs executeTask (outcome supplied by the exec argument); on success
emits task-completed and returns to idle clearing currentTask, on throw
emits agent-error and sets status error, leaving currentTask set. -/
def BaseAgent.handleRequest (exec : Except String TaskResult)
    (m : AgentMessage) (b : BaseAgent) : BaseAgent × List AgentEvent :=
  let task : AgentTask :=
    { id := "task"
      agentId := b.agent.id
      type := m.payload.taskType
      status := TaskStatus.inProgress
      input := m.payload.input
      output := none
      priority :=
        match m.payload.priority with
        | some p => if p = 0 then 1 else p
        | none => 1 }
  let b1 : BaseAgent :=
    { b with agent := { b.agent with status := AgentStatus.busy, currentTask := some task } }
  match exec with
  | Except.ok _ =>
      ({ b1 with agent :=
          { b1.agent with status := AgentStatus.idle, currentTask := none } },
       [⟨AgentEventType.taskAssigned, b.agent.id⟩,
        ⟨AgentEventType.taskCompleted, b.agent.id⟩])
  | Except.error _ =>
      ({ b1 with agent := { b1.agent with status := AgentStatus.error } },
       [⟨AgentEventType.taskAssigned, b.agent.id⟩,
        ⟨AgentEventType.agentError, b.agent.id⟩])

/-- BaseAgent.processMessage: pushes the message onto this.messageQueue
(the private field), then, when the message is a request and the agent is
idle, runs handleRequest. The embedded agent.messageQueue is never
touched. -/
def BaseAgent.processMessage (exec : Except String TaskResult)
    (m : AgentMessage) (b : BaseAgent) : BaseAgent × List AgentEvent :=
  let b1 : BaseAgent := { b with messageQueue := b.messageQueue ++ [m] }
  if m.type = MessageType.request ∧ b1.agent.status = AgentStatus.idle then
    BaseAgent.handleRequest exec m b1
  else
    (b1, [])

/-- Comparator of AgentHub.selectBestAgentInternal (src/unnamed/part_001):
idle before non-idle, then message-queue length; the two branches of the
priority test return the identical expression, so priority is accepted but
unused. The earlier hub variant (src/lib/multi-agent/agent-hub.ts) has the
same comparator without the priority test. -/
def agentOrder (priority : Int) (a b : Agent) : Int :=
  if a.status = AgentStatus.idle ∧ b.status ≠ AgentStatus.idle then -1
  else if a.status ≠ AgentStatus.idle ∧ b.status = AgentStatus.idle then 1
  else if priority > 5 then
    (a.messageQueue.length : Int) - (b.messageQueue.length : Int)
  else
    (a.messageQueue.length : Int) - (b.messageQueue.length : Int)

/-- Stable insertion used to model Array.prototype.sort with a comparator
(the ECMAScript sort is stable): x is placed before the first element that
does not compare strictly smaller. -/
def sortInsert (cmp : Agent → Agent → Int) (x : Agent) : List Agent → List Agent
  | [] => [x]
  | y :: ys => if cmp x y ≤ 0 then x :: y :: ys else y :: sortInsert cmp x ys

/-- Stable sort modelling Array.prototype.sort with a comparator. -/
def sortByCmp (cmp : Agent → Agent → Int) : List Agent → List Agent
  | [] => []
  | x :: xs => sortInsert cmp x (sortByCmp cmp xs)

/-- AgentHub.selectBestAgentInternal: sorts the candidates with the
comparator and returns the first element (none on an empty candidate
list, where the source would yield undefined). -/
def selectBestAgentInternal (agents : List Agent) (priority : Int) : Option Agent :=
  (sortByCmp (agentOrder priority) agents).head?

/-- Model of the AgentHub state: the insertion-ordered agent map and the
configuration. Event callbacks are external; emitted events are returned
by the operations. -/
structure PriorityWeights where
  customerIntelligence : Int
  marketResearch : Int
  firmographic : Int
  technographic : Int
  psychographic : Int
  targetCompany : Int
deriving DecidableEq

/-- Model of MultiAgentConfig from types.ts. -/
structure MultiAgentConfig where
  maxConcurrentAgents : Nat
  taskTimeout : Nat
  retryAttempts : Nat
  dataSharingEnabled : Bool
  priorityWeights : PriorityWeights
deriving DecidableEq

/-- Hub state: agents keyed by id in insertion order (Map semantics), plus
the config. The hub message queue and isProcessing flag belong to the
queued dispatch path, which coordinateICPAnalysis bypasses. -/
structure AgentHub where
  agents : List (String × BaseAgent)
  config : MultiAgentConfig

/-- AgentHub.getAgent: Map.get by id. -/
def AgentHub.getAgent (h : AgentHub) (agentId : String) : Option BaseAgent :=
  (h.agents.find? (fun p => p.1 = agentId)).map (fun p => p.2)

/-- AgentHub.findSuitableAgentsInternal: linear scan of the registered
agents, collecting getStatus() of those whose canHandleTask accepts the
task type. -/
def AgentHub.findSuitableAgentsInternal (h : AgentHub) (taskType : String) : List Agent :=
  ((h.agents.map (fun p => p.2)).filter
      (fun b => b.canHandleTask taskType)).map BaseAgent.getStatus

/-- Task spec as built inside coordinateICPAnalysis before dispatch. -/
structure TaskSpec where
  type : String
  input : TaskInput
  priority : Int

/-- Marks recording the start and the settlement (success or caught throw)
of each direct executeTask invocation, in program order. -/
inductive ExecMark where
  | started (taskType : String)
  | settled (taskType : String)
deriving DecidableEq

/-- Direct-call execution of one phase-1 gathering task inside the
coordinateICPAnalysis loop (src/unnamed/part_001 lines 172-221): emit the
data-shared Executing event, find suitable agents, select the best, look
the selected id up in the map, run executeTask (outcome from the exec
oracle, keyed by agent id and task type); a successful result fills the
slot and emits a data-shared completion event, a throw is caught and
reported as a single agent-error event without aborting the loop. When no
suitable agent exists or the map lookup fails the task is silently
skipped. -/
def runGatherTask (h : AgentHub) (exec : String → String → Except String TaskResult)
    (spec : TaskSpec) : Option TaskResult × List AgentEvent × List ExecMark :=
  if (h.findSuitableAgentsInternal spec.type).isEmpty then
    (none, [⟨AgentEventType.dataShared, "coordinator"⟩], [])
  else
    match selectBestAgentInternal (h.findSuitableAgentsInternal spec.type)
        spec.priority with
    | none => (none, [⟨AgentEventType.dataShared, "coordinator"⟩], [])
    | some sel =>
        match h.getAgent sel.id with
        | none => (none, [⟨AgentEventType.dataShared, "coordinator"⟩], [])
        | some a =>
            match exec a.agent.id spec.type with
            | Except.ok r =>
                (some r,
                 [⟨AgentEventType.dataShared, "coordinator"⟩,
                  ⟨AgentEventType.dataShared, "coordinator"⟩],
                 [ExecMark.started spec.type, ExecMark.settled spec.type])
            | Except.error _ =>
                (none,
                 [⟨AgentEventType.dataShared, "coordinator"⟩,
                  ⟨AgentEventType.agentError, "coordinator"⟩],
                 [ExecMark.started spec.type, ExecMark.settled spec.type])

/-- Direct-call execution of the phase-2 target-company-discovery task
(src/unnamed/part_001 lines 252-288). The structure differs slightly from
the phase-1 loop: the Executing event is emitted only after the agent
lookup succeeds, and a throw is caught into an agent-error event leaving
the slot at its initial empty-object value (modelled as none). -/
def runTargetTask (h : AgentHub) (exec : String → String → Except String TaskResult)
    (spec : TaskSpec) : Option TaskResult × List AgentEvent × List ExecMark :=
  if (h.findSuitableAgentsInternal spec.type).isEmpty then (none, [], [])
  else
    match selectBestAgentInternal (h.findSuitableAgentsInternal spec.type)
        spec.priority with
    | none => (none, [], [])
    | some sel =>
        match h.getAgent sel.id with
        | none => (none, [], [])
        | some a =>
            match exec a.agent.id spec.type with
            | Except.ok r =>
                (some r,
                 [⟨AgentEventType.dataShared, "coordinator"⟩],
                 [ExecMark.started spec.type, ExecMark.settled spec.type])
            | Except.error _ =>
                (none,
                 [⟨AgentEventType.dataShared, "coordinator"⟩,
                  ⟨AgentEventType.agentError, "coordinator"⟩],
                 [ExecMark.started spec.type, ExecMark.settled spec.type])

/-- Record assignment gatheredData[type] = result: set-or-append on the
string-keyed association list. -/
def recordSet (m : List (String × TaskResult)) (k : String) (v : TaskResult) :
    List (String × TaskResult) :=
  if m.any (fun p => p.1 = k) then
    m.map (fun p => if p.1 = k then (k, v) else p)
  else m ++ [(k, v)]

/-- Record lookup gatheredData[type]. -/
def recordGet (m : List (String × TaskResult)) (k : String) : Option TaskResult :=
  (m.find? (fun p => p.1 = k)).map (fun p => p.2)

/-- Rational one half in reduced form (kernel-computable), the 0.5 default
of calculateOverallConfidence. -/
def ratHalf : ℚ := ⟨1, 2, by norm_num, by norm_num⟩

/-- AgentHub.calculateOverallConfidence: mean of the numeric confidence
fields found by shallow inspection of the gathered values, defaulting to
0.5 when none report one. -/
def calculateOverallConfidence (data : List (String × TaskResult)) : ℚ :=
  let confidences := data.filterMap (fun p => p.2.confidence)
  if confidences.isEmpty then ratHalf
  else confidences.sum / (confidences.length : ℚ)

/-- Model of CombinedResearchData: one optional slot per gathering task
plus the target-company slot and the metadata block (lastUpdated is a
wall-clock date and is not modelled). A missing slot models the undefined
value the source stores when a task failed or was skipped. -/
structure CombinedResearchData where
  customerIntelligence : Option TaskResult
  marketResearch : Option TaskResult
  firmographicData : Option TaskResult
  technographicData : Option TaskResult
  psychographicData : Option TaskResult
  targetCompanyData : Option TaskResult
  totalSources : Nat
  confidence : ℚ
  agentsUsed : List String
deriving DecidableEq

/-- The five phase-1 gathering task specs, in the order the source lists
them, with priorities drawn from config.priorityWeights. -/
def dataGatheringTasks (cfg : MultiAgentConfig) (query : String)
    (initialSources : List String) : List TaskSpec :=
  [ ⟨"customer-intelligence", TaskInput.gather query initialSources,
      cfg.priorityWeights.customerIntelligence⟩,
    ⟨"market-research", TaskInput.gather query initialSources,
      cfg.priorityWeights.marketResearch⟩,
    ⟨"firmographic-analysis", TaskInput.gather query initialSources,
      cfg.priorityWeights.firmographic⟩,
    ⟨"technographic-analysis", TaskInput.gather query initialSources,
      cfg.priorityWeights.technographic⟩,
    ⟨"psychographic-analysis", TaskInput.gather query initialSources,
      cfg.priorityWeights.psychographic⟩ ]

/-- AgentHub.coordinateICPAnalysis (direct-call variant,
src/unnamed/part_001 lines 104-341): emits the framing events, runs the
five gathering tasks one iteration of the for-loop at a time (each
awaited executeTask settles before the next starts), then the dependent
target-company-discovery task over three of the gathered slots, and merges
everything into CombinedResearchData. Returns the combined data, the
events emitted by the coordinator, and the executeTask invocation trace.
Events emitted from inside the agents own executeTask bodies are outside
this model. -/
def coordinateICPAnalysis (h : AgentHub)
    (exec : String → String → Except String TaskResult)
    (query : String) (initialSources : List String) :
    CombinedResearchData × List AgentEvent × List ExecMark :=
  let startEvs : List AgentEvent :=
    [⟨AgentEventType.agentStarted, "coordinator"⟩,
     ⟨AgentEventType.dataShared, "coordinator"⟩,
     ⟨AgentEventType.dataShared, "coordinator"⟩]
  let phase1 :=
    (dataGatheringTasks h.config query initialSources).foldl
      (fun acc spec =>
        let r := runGatherTask h exec spec
        (match r.1 with
         | some v => recordSet acc.1 spec.type v
         | none => acc.1,
         acc.2.1 ++ r.2.1,
         acc.2.2 ++ r.2.2))
      (([] : List (String × TaskResult)), (startEvs, ([] : List ExecMark)))
  let gathered := phase1.1
  let targetSpec : TaskSpec :=
    ⟨"target-company-discovery",
     TaskInput.discovery query
       (recordGet gathered "customer-intelligence")
       (recordGet gathered "market-research")
       (recordGet gathered "firmographic-analysis"),
     h.config.priorityWeights.targetCompany⟩
  let p2 := runTargetTask h exec targetSpec
  let combined : CombinedResearchData :=
    { customerIntelligence := recordGet gathered "customer-intelligence"
      marketResearch := recordGet gathered "market-research"
      firmographicData := recordGet gathered "firmographic-analysis"
      technographicData := recordGet gathered "technographic-analysis"
      psychographicData := recordGet gathered "psychographic-analysis"
      targetCompanyData := p2.1
      totalSources := initialSources.length
      confidence := calculateOverallConfidence gathered
      agentsUsed := h.agents.map (fun p => p.1) }
  (combined,
   phase1.2.1
     ++ [⟨AgentEventType.dataShared, "coordinator"⟩,
         ⟨AgentEventType.dataShared, "coordinator"⟩]
     ++ p2.2.1
     ++ [⟨AgentEventType.dataShared, "coordinator"⟩,
         ⟨AgentEventType.dataShared, "coordinator"⟩,
         ⟨AgentEventType.agentCompleted, "coordinator"⟩],
   phase1.2.2 ++ p2.2.2)

/-- Execution outcome of the direct-call dispatch for one task type:
none when no suitable agent exists (or the selected id is not in the map),
otherwise the executeTask outcome of the selected agent. This is the
discriminating quantity of the per-task try/catch in
coordinateICPAnalysis. -/
def taskExecOutcome (h : AgentHub) (exec : String → String → Except String TaskResult)
    (taskType : String) (priority : Int) : Option (Except String TaskResult) :=
  if (h.findSuitableAgentsInternal taskType).isEmpty then none
  else
    match selectBestAgentInternal (h.findSuitableAgentsInternal taskType) priority with
    | none => none
    | some sel =>
        match h.getAgent sel.id with
        | none => none
        | some a => some (exec a.agent.id taskType)

/-- Test agent fixture: one BaseAgent able to handle exactly one task
type. -/
def soloAgent (agentId taskType : String) : BaseAgent :=
  mkBaseAgent agentId agentId "" [⟨taskType, "", [taskType], [], 0⟩]

/-- Test hub fixture: one dedicated agent per coordination task type, the
default priority weights of MultiAgentICPEngine, used to evaluate the
coordination pipeline at a concrete input. -/
def testHub : AgentHub :=
  { agents :=
      [("a-ci", soloAgent "a-ci" "customer-intelligence"),
       ("a-mr", soloAgent "a-mr" "market-research"),
       ("a-fa", soloAgent "a-fa" "firmographic-analysis"),
       ("a-ta", soloAgent "a-ta" "technographic-analysis"),
       ("a-pa", soloAgent "a-pa" "psychographic-analysis"),
       ("a-tcd", soloAgent "a-tcd" "target-company-discovery")]
    config :=
      { maxConcurrentAgents := 6
        taskTimeout := 60000
        retryAttempts := 2
        dataSharingEnabled := true
        priorityWeights :=
          { customerIntelligence := 10
            marketResearch := 9
            firmographic := 8
            technographic := 7
            psychographic := 6
            targetCompany := 5 } } }

/-- JSON value model for the host runtime JSON.parse output. -/
inductive Json where
  | null
  | bool (b : Bool)
  | num (q : ℚ)
  | str (s : String)
  | arr (elems : List Json)
  | obj (fields : List (String × Json))

/-- ICPSynthesisAgent.extractICPProfilesFromText: the text-fallback parser
is an unimplemented stub returning the empty list. -/
def extractICPProfilesFromText (_text : String) : List Json := []

/-- ICPSynthesisAgent.extractValidatedProfilesFromText: stub returning the
empty list. -/
def extractValidatedProfilesFromText (_text : String) : List Json := []

/-- ICPSynthesisAgent.extractProfilesWithInsightsFromText: stub returning
the empty list. -/
def extractProfilesWithInsightsFromText (_text : String) : List Json := []

/-- ICPSynthesisAgent.parseICPProfiles: JSON.parse the response (the parse
outcome of the host runtime parser is the first argument; a parse throw is
the error case), return the parsed value when it is an array, the empty
list when it parses to a non-array, and the text-fallback stub when
parsing throws. -/
def parseICPProfiles (parsed : Except Unit Json) (response : String) : List Json :=
  match parsed with
  | Except.error _ => extractICPProfilesFromText response
  | Except.ok j =>
      match j with
      | Json.arr elems => elems
      | _ => []

/-- ICPSynthesisAgent.parseValidatedProfiles: same shape as
parseICPProfiles with the validated-profiles fallback stub. -/
def parseValidatedProfiles (parsed : Except Unit Json) (response : String) : List Json :=
  match parsed with
  | Except.error _ => extractValidatedProfilesFromText response
  | Except.ok j =>
      match j with
      | Json.arr elems => elems
      | _ => []

/-- ICPSynthesisAgent.parseProfilesWithInsights: same shape as
parseICPProfiles with the insights fallback stub. -/
def parseProfilesWithInsights (parsed : Except Unit Json) (response : String) : List Json :=
  match parsed with
  | Except.error _ => extractProfilesWithInsightsFromText response
  | Except.ok j =>
      match j with
      | Json.arr elems => elems
      | _ => []

end MultiAgent

namespace SearchEngine

/-- Retry and scoring constants of SEARCH_CONFIG (src/lib/config.ts). -/
def MAX_RETRIES : Nat := 2

/-- SEARCH_CONFIG.MAX_SEARCH_ATTEMPTS. -/
def MAX_SEARCH_ATTEMPTS : Nat := 3

/-- SEARCH_CONFIG.MIN_ANSWER_CONFIDENCE (0.3), given in reduced form so the
kernel can evaluate comparisons against it. -/
def MIN_ANSWER_CONFIDENCE : ℚ := ⟨3, 10, by norm_num, by norm_num⟩

/-- SEARCH_CONFIG.MIN_CONTENT_LENGTH. -/
def MIN_CONTENT_LENGTH : Nat := 100

/-- SEARCH_CONFIG.MAX_SOURCES_TO_SCRAPE. -/
def MAX_SOURCES_TO_SCRAPE : Nat := 6

/-- SearchPhase values as they occur at runtime. The declared union in the
source omits scrape, but the search node assigns the string scrape through
a cast, so the runtime value set includes it. -/
inductive SearchPhase where
  | understanding
  | planning
  | searching
  | scrape
  | analyzing
  | synthesizing
  | complete
  | error
deriving DecidableEq

/-- ErrorType values (search | scrape | llm | unknown). -/
inductive ErrorType where
  | search
  | scrape
  | llm
  | unknown
deriving DecidableEq

/-- Model of Source (src/unnamed/part_007). The metadata bag is not read by
any embedded operation and is not modelled. -/
structure Source where
  url : String
  title : String
  content : Option String
  quality : Option ℚ
  summary : Option String
deriving DecidableEq

/-- Model of one subQueries entry. -/
structure SubQuery where
  question : String
  searchQuery : String
  answered : Bool
  answer : Option String
  confidence : ℚ
  sources : List String
deriving DecidableEq

/-- Model of one entry of the JSON array the answer-check LLM call returns
(question/answered/confidence/answer/sources). -/
structure EvalResult where
  question : String
  answered : Bool
  confidence : ℚ
  answer : Option String
  sources : List String
deriving DecidableEq

/-- Model of the LangGraph state record built by SearchStateAnnotation.
The context field (prior conversation) is consumed only inside prompt
construction and is not modelled. -/
structure SearchState where
  query : String
  understanding : Option String
  searchQueries : Option (List String)
  currentSearchIndex : Nat
  sources : List Source
  scrapedSources : List Source
  processedSources : Option (List Source)
  finalAnswer : Option String
  followUpQuestions : Option (List String)
  subQueries : Option (List SubQuery)
  searchAttempt : Nat
  phase : SearchPhase
  error : Option String
  errorType : Option ErrorType
  maxRetries : Nat
  retryCount : Nat
deriving DecidableEq

/-- Map.set on a url-keyed association list: replace the entry in place
when the key exists (keeping its insertion position), append otherwise —
the ECMAScript Map semantics used by the sources reducer and by the
analyze node. An ECMAScript Map never holds a key twice, which the
recursion preserves from the empty map. -/
def mapSet : List (String × Source) → String → Source → List (String × Source)
  | [], k, v => [(k, v)]
  | p :: rest, k, v => if p.1 = k then (k, v) :: rest else p :: mapSet rest k v

/-- One sourceMap.set(source.url, source) step. -/
def sourceMapInsert (m : List (String × Source)) (s : Source) :
    List (String × Source) :=
  mapSet m s.url s

/-- Deduplicate a source list by URL with last-write-wins values, as the
sources reducer does: build a Map keyed by url over the whole list, then
take Array.from(map.values()). -/
def dedupByUrl (ss : List Source) : List Source :=
  (ss.foldl sourceMapInsert []).map (fun p => p.2)

/-- Reducer of the sources channel (src/unnamed/part_007 lines 113-124): an
undefined update keeps the existing list, otherwise the concatenation of
existing and update is deduplicated by URL. -/
def sourcesReducer (existing : List Source) (update : Option (List Source)) :
    List Source :=
  match update with
  | none => existing
  | some u => dedupByUrl (existing ++ u)

/-- Reducer of the scrapedSources channel: plain append. -/
def scrapedSourcesReducer (existing : List Source) (update : Option (List Source)) :
    List Source :=
  match update with
  | none => existing
  | some u => existing ++ u

/-- Merged source list computed at the start of the analyze node
(lines 1300-1309): a url-keyed Map filled first from state.sources and then
from state.scrapedSources, so a scraped record overrides the search record
for the same URL. -/
def analyzeMergedSources (sources scrapedSources : List Source) : List Source :=
  ((scrapedSources.foldl sourceMapInsert (sources.foldl sourceMapInsert []))).map
    (fun p => p.2)

/-- Insertion-order deduplication of a string list, the model of
building a Set from an array and spreading it back. -/
def dedupFirst (l : List String) : List String :=
  l.foldl (fun acc x => if acc.contains x then acc else acc ++ [x]) []

/-- Post-LLM update step of LangGraphSearchEngine.checkAnswersInSources
(lines 1733-1848). With no sources the sub-queries are returned unchanged;
a throw anywhere in the LLM call or JSON.parse (the Except.error case) is
caught and also returns them unchanged; otherwise each sub-query is
overwritten from the matching result only when that result reports a
strictly higher confidence, marking it answered at confidence at least
MIN_ANSWER_CONFIDENCE and unioning the contributing source URLs. -/
def checkAnswersUpdate (subQueries : List SubQuery) (sources : List Source)
    (res : Except Unit (List EvalResult)) : List SubQuery :=
  if sources.isEmpty then subQueries
  else
    match res with
    | Except.error _ => subQueries
    | Except.ok results =>
        subQueries.map (fun sq =>
          match results.find? (fun r => r.question = sq.question) with
          | some r =>
              if sq.confidence < r.confidence then
                { question := sq.question
                  searchQuery := sq.searchQuery
                  answered := decide (MIN_ANSWER_CONFIDENCE ≤ r.confidence)
                  answer := r.answer
                  confidence := r.confidence
                  sources := dedupFirst (sq.sources ++ r.sources) }
              else sq
          | none => sq)

/-- Condition selecting the still-unanswered sub-queries in the plan node
and in generateAlternativeSearchQueries. -/
def unansweredCond (sq : SubQuery) : Bool :=
  !sq.answered || decide (sq.confidence < MIN_ANSWER_CONFIDENCE)

/-- Recursion underlying the forEach of the plan retry branch: walk the
sub-queries carrying the alternativeIndex, rewriting the searchQuery field
of each still-unanswered sub-query while replacements remain. -/
def assignAltQueriesGo (qs : List String) : List SubQuery → Nat → List SubQuery
  | [], _ => []
  | sq :: rest, idx =>
      if unansweredCond sq then
        if h : idx < qs.length then
          { sq with searchQuery := qs.get ⟨idx, h⟩ } :: assignAltQueriesGo qs rest (idx + 1)
        else sq :: assignAltQueriesGo qs rest idx
      else sq :: assignAltQueriesGo qs rest idx

/-- The forEach in the plan retry branch that rewrites the searchQuery
field of each still-unanswered sub-query from the alternative query list,
advancing an index only when a replacement was available. -/
def assignAltQueries (subQueries : List SubQuery) (qs : List String) :
    List SubQuery :=
  assignAltQueriesGo qs subQueries 0

/-- Outcome of one firecrawl.scrapeUrl call. -/
structure ScrapeResult where
  success : Bool
  markdown : Option String
  errMsg : Option String
deriving DecidableEq

/-- ECMAScript truthiness of an optional string (undefined and the empty
string are falsy). -/
def jsTruthyStr (o : Option String) : Bool :=
  match o with
  | some s => !(s = "")
  | none => false

/-- Rational one fifth in reduced form, the 0.2 increment of
scoreContent. -/
def ratFifth : ℚ := ⟨1, 5, by norm_num, by norm_num⟩

/-- LangGraphSearchEngine.scoreContent: 0.2 per query word contained in
the lowercased content, capped at 1. -/
def scoreContent (content query : String) : ℚ :=
  let queryWords := query.toLower.splitOn " "
  let contentLower := content.toLower
  let score := queryWords.foldl
    (fun sc w =>
      if List.IsInfix w.data contentLower.data then sc + ratFifth else sc) 0
  min score 1

/-- Oracle of external-call outcomes, indexed by the global step counter of
the run (every node execution advances the counter once). The helpers that
catch internally and always return (extractSubQueries,
generateAlternativeSearchQueries, summarizeContent) are total; the ones
whose throw escapes to the node (analyzeQuery, the search-node try block,
per-source scraping, checkAnswersInSources, processSources,
generateStreamingAnswer with generateFollowUpQuestions) are Except. -/
structure Oracle where
  analyzeQueryRes : Nat → Except String String
  extractSubQueriesRes : Nat → List (String × String)
  altQueriesRes : Nat → List String
  searchCallRes : Nat → Except String (List Source)
  scrapeIterRes : Nat → Nat → Except Unit (ScrapeResult × String)
  checkAnswersRes : Nat → Except Unit (List EvalResult)
  processSourcesRes : Nat → Except Unit (List Source)
  synthesizeRes : Nat → Except String (String × List String)

/-- Understand node: analyzeQuery success stores the understanding and
moves to planning, a throw stores the message as an llm error and moves to
the error phase. -/
def understandNode (res : Except String String) (s : SearchState) : SearchState :=
  match res with
  | Except.ok u => { s with understanding := some u, phase := SearchPhase.planning }
  | Except.error e =>
      { s with error := some e, errorType := some ErrorType.llm,
               phase := SearchPhase.error }

/-- Plan node (lines 976-1063): extract sub-queries on the first run,
skip directly to analyzing when none remain unanswered, otherwise either
take the unanswered sub-queries own search queries (first attempt) or the
alternative-query list (retries, also rewriting the sub-queries searchQuery
fields). Both helper calls catch internally and always return, so the
catch branch of the node is unreachable and the model is total. -/
def planNode (extractRes : List (String × String)) (altRes : List String)
    (s : SearchState) : SearchState :=
  let subQueries : List SubQuery :=
    match s.subQueries with
    | some sqs => sqs
    | none =>
        extractRes.map (fun p =>
          { question := p.1, searchQuery := p.2, answered := false,
            answer := none, confidence := 0, sources := [] })
  let unanswered := subQueries.filter unansweredCond
  if unanswered.isEmpty then
    { s with subQueries := some subQueries, phase := SearchPhase.analyzing }
  else if 0 < s.searchAttempt then
    { s with searchQueries := some altRes,
             subQueries := some (assignAltQueries subQueries altRes),
             currentSearchIndex := 0,
             phase := SearchPhase.searching }
  else
    { s with searchQueries := some (unanswered.map (fun sq => sq.searchQuery)),
             subQueries := some subQueries,
             currentSearchIndex := 0,
             phase := SearchPhase.searching }

/-- Search node (lines 1066-1200): past the end of the query list it moves
to the scrape phase; otherwise one retrieval is attempted. Success merges
the found sources (already scored and summarized, which the oracle outcome
carries) through the sources reducer and advances the index; a throw
anywhere in the try block is caught into an update that only advances the
index and sets errorType to search, leaving the phase and the error field
untouched. -/
def searchNode (callRes : Except String (List Source)) (s : SearchState) :
    SearchState :=
  let qs := s.searchQueries.getD []
  if qs.length ≤ s.currentSearchIndex then
    { s with phase := SearchPhase.scrape }
  else
    match callRes with
    | Except.ok newSources =>
        { s with sources := sourcesReducer s.sources (some newSources),
                 currentSearchIndex := s.currentSearchIndex + 1 }
    | Except.error _ =>
        { s with currentSearchIndex := s.currentSearchIndex + 1,
                 errorType := some ErrorType.search }

/-- Length-based content check used by the scrape node to split sources
into pass-through and to-scrape lists. -/
def longContent (src : Source) : Bool :=
  match src.content with
  | some c => decide (MIN_CONTENT_LENGTH ≤ c.length)
  | none => false

/-- Per-source scrape loop of the scrape node: each iteration either
appends one enriched source (successful scrape with truthy markdown,
summary attached when the summarizer returned a non-empty string) or
appends nothing (timeout, unsuccessful scrape, or a caught throw), and
the loop always continues. -/
def scrapeLoop (iter : Nat → Except Unit (ScrapeResult × String)) (query : String) :
    Nat → List Source → List Source
  | _, [] => []
  | i, src :: rest =>
      (match iter i with
       | Except.error _ => []
       | Except.ok (res, summ) =>
           if res.success && jsTruthyStr res.markdown then
             let md := res.markdown.getD ""
             [{ src with content := some md,
                         quality := some (scoreContent md query),
                         summary := if summ = "" then src.summary else some summ }]
           else []) ++ scrapeLoop iter query (i + 1) rest

/-- Scrape node (lines 1203-1286): sources with long content pass through
unchanged, up to MAX_SOURCES_TO_SCRAPE of the rest are scraped, and the
result is appended to the scrapedSources channel; the phase becomes
analyzing. -/
def scrapeNode (iter : Nat → Except Unit (ScrapeResult × String)) (s : SearchState) :
    SearchState :=
  let sourcesToScrape := s.sources.filter (fun src => !longContent src)
  let sourcesWithContent := s.sources.filter longContent
  let scraped :=
    scrapeLoop iter s.query 0 (sourcesToScrape.take MAX_SOURCES_TO_SCRAPE)
  { s with
      scrapedSources :=
        scrapedSourcesReducer s.scrapedSources (some (sourcesWithContent ++ scraped)),
      phase := SearchPhase.analyzing }

/-- Analyze node (lines 1289-1422): merge sources and scrapedSources by
URL, re-check the sub-question answers, then either loop back to planning
(not all answered, attempt budget left, and no partial information after
two or more attempts) or proceed to synthesizing, falling back to the
merged list itself when processSources throws. The merged list is written
back through the sources channel reducer. -/
def analyzeNode (checkRes : Except Unit (List EvalResult))
    (procRes : Except Unit (List Source)) (s : SearchState) : SearchState :=
  let allSources := analyzeMergedSources s.sources s.scrapedSources
  match s.subQueries with
  | some sqs =>
      let updated := checkAnswersUpdate sqs allSources checkRes
      let answeredCount := (updated.filter (fun sq => sq.answered)).length
      let totalQuestions := updated.length
      let searchAttempt := s.searchAttempt + 1
      let partialAnswers :=
        updated.filter (fun sq => decide (MIN_ANSWER_CONFIDENCE ≤ sq.confidence))
      let hasPartialInfo := answeredCount < partialAnswers.length
      if answeredCount < totalQuestions ∧ searchAttempt < MAX_SEARCH_ATTEMPTS
          ∧ ¬(hasPartialInfo ∧ 2 ≤ searchAttempt) then
        { s with sources := sourcesReducer s.sources (some allSources),
                 subQueries := some updated,
                 searchAttempt := searchAttempt,
                 phase := SearchPhase.planning }
      else
        match procRes with
        | Except.ok ps =>
            { s with sources := sourcesReducer s.sources (some allSources),
                     processedSources := some ps,
                     subQueries := some updated,
                     searchAttempt := searchAttempt,
                     phase := SearchPhase.synthesizing }
        | Except.error _ =>
            { s with sources := sourcesReducer s.sources (some allSources),
                     processedSources := some allSources,
                     subQueries := some updated,
                     searchAttempt := searchAttempt,
                     phase := SearchPhase.synthesizing }
  | none =>
      match procRes with
      | Except.ok ps =>
          { s with sources := sourcesReducer s.sources (some allSources),
                   processedSources := some ps,
                   phase := SearchPhase.synthesizing }
      | Except.error _ =>
          { s with sources := sourcesReducer s.sources (some allSources),
                   processedSources := some allSources,
                   phase := SearchPhase.synthesizing }

/-- Synthesize node: success stores the streamed answer and follow-up
questions and completes, a throw becomes an llm error phase. -/
def synthesizeNode (res : Except String (String × List String)) (s : SearchState) :
    SearchState :=
  match res with
  | Except.ok r =>
      { s with finalAnswer := some r.1, followUpQuestions := some r.2,
               phase := SearchPhase.complete }
  | Except.error e =>
      { s with error := some e, errorType := some ErrorType.llm,
               phase := SearchPhase.error }

/-- Error-handling node (lines 1473-1501). The source compares retryCount
against state.maxRetries || MAX_RETRIES, so a zero maxRetries falls back
to the configured constant (ECMAScript falsiness of 0). Within budget the
node increments retryCount and sets the phase field to searching for
search-type errors and understanding otherwise; it also returns explicit
undefined for error and errorType, but those channels are declared with
reducer (x, y) => y ?? x (lines 167-174), under which an undefined update
is a no-op, so the state keeps its old error and errorType values; over
budget it sets the terminal error phase. -/
def handleErrorNode (s : SearchState) : SearchState :=
  let mr := if s.maxRetries = 0 then MAX_RETRIES else s.maxRetries
  if s.retryCount < mr then
    { s with retryCount := s.retryCount + 1,
             phase := if s.errorType = some ErrorType.search then
                 SearchPhase.searching
               else SearchPhase.understanding }
  else { s with phase := SearchPhase.error }

/-- Complete node: re-asserts the complete phase and emits the final
result event. -/
def completeNode (s : SearchState) : SearchState :=
  { s with phase := SearchPhase.complete }

/-- Graph nodes of the compiled workflow. -/
inductive Node where
  | understand
  | plan
  | search
  | scrape
  | analyze
  | synthesize
  | handleError
  | complete
deriving DecidableEq

/-- Conditional edges of the workflow (lines 1528-1598), evaluated on the
state left by the node just executed; none is END. -/
def nextNode : Node → SearchState → Option Node
  | Node.understand, s =>
      if s.phase = SearchPhase.error then some Node.handleError else some Node.plan
  | Node.plan, s =>
      if s.phase = SearchPhase.error then some Node.handleError else some Node.search
  | Node.search, s =>
      if s.phase = SearchPhase.error then some Node.handleError
      else if s.currentSearchIndex < (s.searchQueries.getD []).length then
        some Node.search
      else some Node.scrape
  | Node.scrape, s =>
      if s.phase = SearchPhase.error then some Node.handleError else some Node.analyze
  | Node.analyze, s =>
      if s.phase = SearchPhase.error then some Node.handleError
      else if s.phase = SearchPhase.planning then some Node.plan
      else some Node.synthesize
  | Node.synthesize, s =>
      if s.phase = SearchPhase.error then some Node.handleError
      else some Node.complete
  | Node.handleError, s =>
      if s.phase = SearchPhase.error then none else some Node.understand
  | Node.complete, _ => none

/-- Run one node at step counter t and evaluate its outgoing edge. -/
def stepOnce (o : Oracle) (t : Nat) (n : Node) (s : SearchState) :
    Option Node × SearchState :=
  let s2 :=
    match n with
    | Node.understand => understandNode (o.analyzeQueryRes t) s
    | Node.plan => planNode (o.extractSubQueriesRes t) (o.altQueriesRes t) s
    | Node.search => searchNode (o.searchCallRes t) s
    | Node.scrape => scrapeNode (o.scrapeIterRes t) s
    | Node.analyze => analyzeNode (o.checkAnswersRes t) (o.processSourcesRes t) s
    | Node.synthesize => synthesizeNode (o.synthesizeRes t) s
    | Node.handleError => handleErrorNode s
    | Node.complete => completeNode s
  (nextNode n s2, s2)

/-- Fuelled multi-step execution: (final step counter, current node or END,
state) after at most the given number of node executions; END absorbs. -/
def steps (o : Oracle) : Nat → Nat → Option Node → SearchState →
    Nat × Option Node × SearchState
  | 0, t, n?, s => (t, n?, s)
  | _ + 1, t, none, s => (t, none, s)
  | k + 1, t, some n, s =>
      let r := stepOnce o t n s
      steps o k (t + 1) r.1 r.2

/-- Initial state built by LangGraphSearchEngine.search (lines 1611-1629). -/
def initialState (query : String) : SearchState :=
  { query := query
    understanding := none
    searchQueries := none
    currentSearchIndex := 0
    sources := []
    scrapedSources := []
    processedSources := none
    finalAnswer := none
    followUpQuestions := none
    subQueries := none
    searchAttempt := 0
    phase := SearchPhase.understanding
    error := none
    errorType := none
    maxRetries := MAX_RETRIES
    retryCount := 0 }

/-- Invariant of the all-searches-fail run class at the plan node: no
sources have been accumulated and every sub-query (once extracted) is
still unanswered at confidence zero. -/
def FailRunInv (s : SearchState) : Prop :=
  s.sources = [] ∧ s.scrapedSources = [] ∧ s.phase ≠ SearchPhase.error ∧
  ((s.subQueries = none) ∨
    (∃ sqs, s.subQueries = some sqs ∧ sqs ≠ [] ∧
      ∀ sq ∈ sqs, sq.answered = false ∧ sq.confidence = 0))

/-- Oracle class of C7: every firecrawl search call throws, while the
understanding and synthesis LLM calls succeed and the sub-query
extraction is nonempty. -/
def AllSearchFail (o : Oracle) : Prop :=
  (∀ t, ∃ e, o.searchCallRes t = Except.error e)
  ∧ (∀ t, ∃ u, o.analyzeQueryRes t = Except.ok u)
  ∧ (∀ t, o.extractSubQueriesRes t ≠ [])
  ∧ (∀ t, ∃ r, o.synthesizeRes t = Except.ok r)

/-- Oracle fixture for runs in which every retrieval attempt throws while
the LLM steps succeed: analyzeQuery and synthesis return, sub-query
extraction yields one question, every firecrawl search call throws. -/
def allSearchFailOracle : Oracle :=
  { analyzeQueryRes := fun _ => Except.ok "understood"
    extractSubQueriesRes := fun _ => [("q1", "s1")]
    altQueriesRes := fun _ => ["alt"]
    searchCallRes := fun _ => Except.error "network down"
    scrapeIterRes := fun _ _ => Except.error ()
    checkAnswersRes := fun _ => Except.error ()
    processSourcesRes := fun _ => Except.error ()
    synthesizeRes := fun _ => Except.ok ("answer", []) }

end SearchEngine

section Claims

open MultiAgent SearchEngine

/-- Sanity: the reduced-form confidence constant is the rational 3/10 of
SEARCH_CONFIG.MIN_ANSWER_CONFIDENCE. -/
theorem MIN_ANSWER_CONFIDENCE_eq : MIN_ANSWER_CONFIDENCE = 3/10 := by
  have h : MIN_ANSWER_CONFIDENCE = Rat.divInt 3 10 := Rat.mk'_eq_divInt
  rw [h, Rat.divInt_eq_div]; norm_num

/-- Helper: processMessage never touches the embedded agent.messageQueue,
whatever the message and the execution outcome. -/
theorem processMessage_preserves_status_queue
    (exec : Except String TaskResult) (m : AgentMessage) (b : BaseAgent) :
    ((BaseAgent.processMessage exec m b).1).agent.messageQueue =
      b.agent.messageQueue := by
  unfold BaseAgent.processMessage BaseAgent.handleRequest
  dsimp only
  split
  · cases exec <;> rfl
  · rfl

/-- Helper: folding any sequence of processMessage calls leaves the
embedded agent.messageQueue unchanged. -/
theorem foldl_processMessage_status_queue
    (msgs : List (AgentMessage × Except String TaskResult)) (b : BaseAgent) :
    (msgs.foldl (fun acc st => (BaseAgent.processMessage st.2 st.1 acc).1)
        b).agent.messageQueue = b.agent.messageQueue := by
  induction msgs generalizing b with
  | nil => rfl
  | cons hd tl ih =>
      rw [List.foldl_cons, ih]
      exact processMessage_preserves_status_queue hd.2 hd.1 b

/-- C10: for every BaseAgent and every sequence of processMessage calls
(with arbitrary executeTask outcomes), the Agent record returned by
getStatus() keeps an empty messageQueue: processMessage appends only to
the private BaseAgent queue, never to the embedded agent.messageQueue.
Consequently the workload comparison a.messageQueue.length -
b.messageQueue.length used by the scheduling comparator always compares
two zero-length queues for agents obtained this way. -/
theorem getStatus_messageQueue_always_empty
    (agentId name description : String) (caps : List AgentCapability)
    (msgs : List (AgentMessage × Except String TaskResult))
    (agentId2 name2 description2 : String) (caps2 : List AgentCapability)
    (msgs2 : List (AgentMessage × Except String TaskResult)) :
    (msgs.foldl (fun acc st => (BaseAgent.processMessage st.2 st.1 acc).1)
        (mkBaseAgent agentId name description caps)).getStatus.messageQueue = []
    ∧ (((msgs.foldl (fun acc st => (BaseAgent.processMessage st.2 st.1 acc).1)
          (mkBaseAgent agentId name description caps)).getStatus.messageQueue.length : Int)
        - ((msgs2.foldl (fun acc st => (BaseAgent.processMessage st.2 st.1 acc).1)
            (mkBaseAgent agentId2 name2 description2 caps2)).getStatus.messageQueue.length : Int)
        = 0) := by
  have h1 := foldl_processMessage_status_queue msgs
    (mkBaseAgent agentId name description caps)
  have h2 := foldl_processMessage_status_queue msgs2
    (mkBaseAgent agentId2 name2 description2 caps2)
  unfold BaseAgent.getStatus
  rw [h1, h2]
  exact ⟨rfl, rfl⟩

/-- C9: every LLM response whose JSON.parse outcome is not a JSON array
makes each of the three ICP synthesis parsers return the empty list
instead of throwing: a parse throw lands in the (stubbed, empty)
text-extraction fallback and a non-array parse returns the empty list
directly, so an empty profile list is the designed non-exceptional
outcome. -/
theorem parseICPProfiles_empty_on_non_array
    (parsed : Except Unit Json) (response : String)
    (h : ∀ elems : List Json, parsed ≠ Except.ok (Json.arr elems)) :
    parseICPProfiles parsed response = []
    ∧ parseValidatedProfiles parsed response = []
    ∧ parseProfilesWithInsights parsed response = [] := by
  refine ⟨?_, ?_, ?_⟩ <;>
    · simp only [parseICPProfiles, parseValidatedProfiles, parseProfilesWithInsights,
        extractICPProfilesFromText, extractValidatedProfilesFromText,
        extractProfilesWithInsightsFromText]
      cases parsed with
      | error e => rfl
      | ok j =>
          cases j with
          | arr elems => exact absurd rfl (h elems)
          | null => rfl
          | bool b => rfl
          | num q => rfl
          | str s => rfl
          | obj fields => rfl

/-- Witness for C9 at a concrete non-JSON outcome: parsing threw. -/
theorem parseICPProfiles_empty_on_non_array_witness :
    parseICPProfiles (Except.error ()) "not json at all" = [] :=
  (parseICPProfiles_empty_on_non_array (Except.error ()) "not json at all"
    (fun _ h => by cases h)).1

/-- Helper: the comparator is a total preorder (totality). -/
theorem agentOrder_total (p : Int) (a b : Agent) :
    agentOrder p a b ≤ 0 ∨ agentOrder p b a ≤ 0 := by
  unfold agentOrder
  split_ifs <;> try tauto
  all_goals omega

/-- Helper: the comparator is a total preorder (transitivity of the
nonpositive relation). -/
theorem agentOrder_trans (p : Int) (a b c : Agent) :
    agentOrder p a b ≤ 0 → agentOrder p b c ≤ 0 → agentOrder p a c ≤ 0 := by
  unfold agentOrder
  by_cases ha : a.status = AgentStatus.idle <;>
    by_cases hb : b.status = AgentStatus.idle <;>
      by_cases hc : c.status = AgentStatus.idle <;>
        simp [ha, hb, hc] <;> (intros; omega)

/-- Helper: membership in a stable insertion. -/
theorem mem_sortInsert (cmp : Agent → Agent → Int) (x z : Agent) (l : List Agent) :
    z ∈ sortInsert cmp x l ↔ z = x ∨ z ∈ l := by
  induction l with
  | nil => simp [sortInsert]
  | cons y ys ih =>
      unfold sortInsert
      split_ifs with h
      · simp [or_comm, or_left_comm]
      · simp [ih, or_comm, or_left_comm]

/-- Helper: insertion preserves pairwise comparator-sortedness. -/
theorem sortInsert_pairwise (p : Int) (x : Agent) :
    ∀ l : List Agent, l.Pairwise (fun a b => agentOrder p a b ≤ 0) →
      (sortInsert (agentOrder p) x l).Pairwise (fun a b => agentOrder p a b ≤ 0) := by
  intro l
  induction l with
  | nil => simp [sortInsert]
  | cons y ys ih =>
      intro hl
      rw [List.pairwise_cons] at hl
      obtain ⟨hy, hys⟩ := hl
      unfold sortInsert
      split_ifs with h
      · rw [List.pairwise_cons]
        refine ⟨?_, ?_⟩
        · intro z hz
          rcases List.mem_cons.1 hz with hz | hz
          · exact hz ▸ h
          · exact agentOrder_trans p x y z h (hy z hz)
        · rw [List.pairwise_cons]
          exact ⟨hy, hys⟩
      · rw [List.pairwise_cons]
        refine ⟨?_, ih hys⟩
        intro z hz
        rcases (mem_sortInsert (agentOrder p) x z ys).1 hz with hz | hz
        · subst hz
          rcases agentOrder_total p z y with hxy | hyx
          · exact absurd hxy h
          · exact hyx
        · exact hy z hz

/-- Helper: the sort of selectBestAgentInternal is pairwise sorted by the
comparator. -/
theorem sortByCmp_pairwise (p : Int) (l : List Agent) :
    (sortByCmp (agentOrder p) l).Pairwise (fun a b => agentOrder p a b ≤ 0) := by
  induction l with
  | nil => simp [sortByCmp]
  | cons x xs ih => exact sortInsert_pairwise p x _ ih

/-- Helper: the comparator never depends on the priority argument. -/
theorem agentOrder_priority_blind (p p' : Int) :
    agentOrder p = agentOrder p' := by
  funext a b
  unfold agentOrder
  split_ifs <;> rfl

/-- C8: scheduling tie-break ignores priority. For a candidate pair of
idle agents with reported queue lengths 0 and 2 (in either order),
selectBestAgentInternal returns the queue-0 agent whatever the priority;
in any sorted candidate list no non-idle agent precedes an idle one; and
changing the priority never changes the selection. -/
theorem selectBestAgent_tie_break
    (a b : Agent) (p p' : Int) (l : List Agent)
    (ha : a.status = AgentStatus.idle) (hb : b.status = AgentStatus.idle)
    (hqa : a.messageQueue.length = 0) (hqb : b.messageQueue.length = 2) :
    (selectBestAgentInternal [a, b] p = some a
      ∧ selectBestAgentInternal [b, a] p = some a)
    ∧ (sortByCmp (agentOrder p) l).Pairwise
        (fun x y => ¬(x.status ≠ AgentStatus.idle ∧ y.status = AgentStatus.idle))
    ∧ selectBestAgentInternal l p = selectBestAgentInternal l p' := by
  refine ⟨⟨?_, ?_⟩, ?_, ?_⟩
  · have hab : agentOrder p a b ≤ 0 := by
      unfold agentOrder
      split_ifs with h1 h2
      · omega
      · exact absurd ha h2.1
      · omega
      · omega
    simp [selectBestAgentInternal, sortByCmp, sortInsert, hab]
  · have hba : ¬ agentOrder p b a ≤ 0 := by
      unfold agentOrder
      split_ifs with h1 h2
      · exact absurd ha h1.2
      · omega
      · omega
      · omega
    simp [selectBestAgentInternal, sortByCmp, sortInsert, hba]
  · refine List.Pairwise.imp ?_ (sortByCmp_pairwise p l)
    intro x y hxy hcon
    simp [agentOrder, hcon.1, hcon.2] at hxy
  · unfold selectBestAgentInternal
    rw [agentOrder_priority_blind p p']

/-- Witness for C8 at two concrete idle agents with queue lengths 0 and 2
and two distinct priorities. -/
theorem selectBestAgent_tie_break_witness :
    selectBestAgentInternal
      [⟨"a1", "A1", "", [], AgentStatus.idle, none, []⟩,
       ⟨"a2", "A2", "", [], AgentStatus.idle, none,
        [⟨"m1", "x", "y", MessageType.status, ⟨"t", TaskInput.gather "q" [], none⟩,
          MessagePriority.low⟩,
         ⟨"m2", "x", "y", MessageType.status, ⟨"t", TaskInput.gather "q" [], none⟩,
          MessagePriority.low⟩]⟩] 9
      = some ⟨"a1", "A1", "", [], AgentStatus.idle, none, []⟩ :=
  ((selectBestAgent_tie_break
      ⟨"a1", "A1", "", [], AgentStatus.idle, none, []⟩
      ⟨"a2", "A2", "", [], AgentStatus.idle, none,
        [⟨"m1", "x", "y", MessageType.status, ⟨"t", TaskInput.gather "q" [], none⟩,
          MessagePriority.low⟩,
         ⟨"m2", "x", "y", MessageType.status, ⟨"t", TaskInput.gather "q" [], none⟩,
          MessagePriority.low⟩]⟩ 9 1 [] rfl rfl rfl rfl).1).1

/-- C4: confidence monotonicity of the answer re-check. For every
sub-query list, source list and LLM evaluation outcome (including the
caught parse-failure case), checkAnswersUpdate relates the old and new
lists pointwise: the stored confidence never decreases, and whenever an
entry changed at all there is a matching evaluation result with strictly
higher confidence whose values were written. -/
theorem checkAnswers_confidence_monotone
    (sqs : List SubQuery) (srcs : List Source)
    (res : Except Unit (List EvalResult)) :
    List.Forall₂
      (fun old new =>
        old.confidence ≤ new.confidence ∧
        (new ≠ old →
          ∃ results, res = Except.ok results ∧
            ∃ r ∈ results, r.question = old.question ∧
              old.confidence < r.confidence ∧ new.confidence = r.confidence))
      sqs (checkAnswersUpdate sqs srcs res) := by
  unfold checkAnswersUpdate
  split_ifs with hsrc
  · refine List.forall₂_same.2 ?_
    intro sq _
    exact ⟨le_refl _, fun hne => absurd rfl hne⟩
  · cases res with
    | error e =>
        refine List.forall₂_same.2 ?_
        intro sq _
        exact ⟨le_refl _, fun hne => absurd rfl hne⟩
    | ok results =>
        rw [List.forall₂_map_right_iff]
        refine List.forall₂_same.2 ?_
        intro sq _
        cases hfind : results.find? (fun r => r.question = sq.question) with
        | none => exact ⟨le_refl _, fun hne => absurd rfl hne⟩
        | some r =>
            dsimp only
            split_ifs with hconf
            · refine ⟨le_of_lt hconf, fun _ => ⟨results, rfl, r,
                List.mem_of_find?_eq_some hfind, ?_, hconf, rfl⟩⟩
              have := List.find?_some hfind
              exact of_decide_eq_true this
            · exact ⟨le_refl _, fun hne => absurd rfl hne⟩

/-- Witness for C4 (whose hypotheses are only the implications inside the
pointwise relation) at a concrete one-element run: a result with higher
confidence overwrites, and the relation is checked by evaluation. -/
theorem checkAnswers_confidence_monotone_witness :
    List.Forall₂
      (fun old new =>
        old.confidence ≤ new.confidence ∧
        (new ≠ old →
          ∃ results,
            (Except.ok [(⟨"q", true, ratHalf, some "a", []⟩ : EvalResult)]
              : Except Unit (List EvalResult)) = Except.ok results ∧
            ∃ r ∈ results, r.question = old.question ∧
              old.confidence < r.confidence ∧ new.confidence = r.confidence))
      [⟨"q", "sq", false, none, 0, []⟩]
      (checkAnswersUpdate [⟨"q", "sq", false, none, 0, []⟩]
        [⟨"u", "t", none, none, none⟩]
        (Except.ok [⟨"q", true, ratHalf, some "a", []⟩])) :=
  checkAnswers_confidence_monotone
    [⟨"q", "sq", false, none, 0, []⟩]
    [⟨"u", "t", none, none, none⟩]
    (Except.ok [⟨"q", true, ratHalf, some "a", []⟩])

/-- C5: analyze-phase replan decision rule. When sub-queries exist, the
analyze node routes back to planning exactly when, on the re-checked
sub-query list, not all questions are answered, the incremented attempt
counter is still below MAX_SEARCH_ATTEMPTS, and there is no partial
information (more entries at confidence at least 0.3 than answered ones)
at two or more attempts; in every other case it proceeds to synthesizing
with the URL-deduplicated sources accumulated so far. -/
theorem analyze_replan_decision
    (s : SearchState) (sqs : List SubQuery)
    (checkRes : Except Unit (List EvalResult))
    (procRes : Except Unit (List Source))
    (hsq : s.subQueries = some sqs) :
    ((analyzeNode checkRes procRes s).phase = SearchPhase.planning ↔
      (((checkAnswersUpdate sqs (analyzeMergedSources s.sources s.scrapedSources)
            checkRes).filter (fun sq => sq.answered)).length
          < (checkAnswersUpdate sqs (analyzeMergedSources s.sources s.scrapedSources)
              checkRes).length
        ∧ s.searchAttempt + 1 < MAX_SEARCH_ATTEMPTS
        ∧ ¬(((checkAnswersUpdate sqs (analyzeMergedSources s.sources s.scrapedSources)
                checkRes).filter (fun sq => sq.answered)).length
              < ((checkAnswersUpdate sqs (analyzeMergedSources s.sources s.scrapedSources)
                  checkRes).filter
                  (fun sq => decide (MIN_ANSWER_CONFIDENCE ≤ sq.confidence))).length
            ∧ 2 ≤ s.searchAttempt + 1)))
    ∧ ((analyzeNode checkRes procRes s).phase ≠ SearchPhase.planning →
        (analyzeNode checkRes procRes s).phase = SearchPhase.synthesizing
        ∧ (analyzeNode checkRes procRes s).sources =
            sourcesReducer s.sources
              (some (analyzeMergedSources s.sources s.scrapedSources))) := by
  unfold analyzeNode
  rw [hsq]
  dsimp only
  split_ifs with h
  · refine ⟨⟨fun _ => h, fun _ => rfl⟩, fun hne => absurd rfl hne⟩
  · cases procRes with
    | ok ps =>
        refine ⟨⟨fun hp => ?_, fun hh => absurd hh h⟩, fun _ => ⟨rfl, rfl⟩⟩
        exact absurd hp (by simp)
    | error e =>
        refine ⟨⟨fun hp => ?_, fun hh => absurd hh h⟩, fun _ => ⟨rfl, rfl⟩⟩
        exact absurd hp (by simp)

/-- Witness for C5 at a concrete state with one unanswered sub-query on
the first attempt: the node loops back to planning and the decision
condition evaluates accordingly. -/
theorem analyze_replan_decision_witness :
    (analyzeNode (Except.error ()) (Except.error ())
        { initialState "q" with
            subQueries := some [⟨"q1", "s1", false, none, 0, []⟩] }).phase =
      SearchPhase.planning := by
  refine ((analyze_replan_decision
      { initialState "q" with
          subQueries := some [⟨"q1", "s1", false, none, 0, []⟩] }
      [⟨"q1", "s1", false, none, 0, []⟩]
      (Except.error ()) (Except.error ()) rfl).1).2 ?_
  refine ⟨by decide, by decide, ?_⟩
  decide

/-- C6 counterexample: a state entering the error handler with a
search-type error and retry budget left. The handler sets the phase field
to searching, but the conditional edge of the graph then routes to the
understand node, not the search node, so execution does not re-enter the
searching phase. -/
theorem handleError_search_error_goes_to_understand :
    nextNode Node.handleError
        (handleErrorNode
          { initialState "q" with
              phase := SearchPhase.error
              error := some "search failed"
              errorType := some ErrorType.search }) = some Node.understand
    ∧ (some Node.understand : Option Node) ≠ some Node.search
    ∧ (handleErrorNode
        { initialState "q" with
            phase := SearchPhase.error
            error := some "search failed"
            errorType := some ErrorType.search }).retryCount = 1 := by
  exact ⟨rfl, by decide, rfl⟩

/-- C6 (amended): within the retry budget the error handler increments
retryCount and sets the phase field to searching for a search-related
error and understanding otherwise, but contrary to the original claim it
does not clear the error and errorType fields — the node returns them as
explicit undefined and the (x, y) => y ?? x channel reducers make those
writes no-ops, so the old values are retained — and the conditional edge
then re-enters the understand node in both cases, never the search node;
once the budget is exhausted the phase becomes error and the edge
terminates the run. The maxRetries hypothesis excludes zero because the
source reads state.maxRetries || MAX_RETRIES, so a zero value falls back
to the constant. -/
theorem handleError_retry_behavior (s : SearchState) (hmr : s.maxRetries ≠ 0) :
    (s.retryCount < s.maxRetries →
      (handleErrorNode s).retryCount = s.retryCount + 1
      ∧ (handleErrorNode s).error = s.error
      ∧ (handleErrorNode s).errorType = s.errorType
      ∧ (handleErrorNode s).phase =
          (if s.errorType = some ErrorType.search then SearchPhase.searching
            else SearchPhase.understanding)
      ∧ nextNode Node.handleError (handleErrorNode s) = some Node.understand)
    ∧ (s.maxRetries ≤ s.retryCount →
      (handleErrorNode s).phase = SearchPhase.error
      ∧ nextNode Node.handleError (handleErrorNode s) = none) := by
  unfold handleErrorNode
  rw [if_neg hmr]
  constructor
  · intro hlt
    rw [if_pos hlt]
    refine ⟨rfl, rfl, rfl, rfl, ?_⟩
    by_cases het : s.errorType = some ErrorType.search
    · simp [nextNode, het]
    · simp [nextNode, het]
  · intro hge
    rw [if_neg (by omega)]
    exact ⟨rfl, rfl⟩

/-- Witness for C6 at concrete states: one llm-type error within budget
re-enters understanding via the edge, and one exhausted-budget state
terminates. -/
theorem handleError_retry_behavior_witness :
    (handleErrorNode
        { initialState "q" with
            phase := SearchPhase.error
            error := some "llm failed"
            errorType := some ErrorType.llm }).phase = SearchPhase.understanding
    ∧ (handleErrorNode
        { initialState "q" with
            phase := SearchPhase.error
            retryCount := 2 }).phase = SearchPhase.error := by
  constructor
  · have h := (handleError_retry_behavior
      { initialState "q" with
          phase := SearchPhase.error
          error := some "llm failed"
          errorType := some ErrorType.llm } (by decide)).1 (by decide)
    rw [h.2.2.2.1]
    decide
  · exact ((handleError_retry_behavior
      { initialState "q" with
          phase := SearchPhase.error
          retryCount := 2 } (by decide)).2 (by decide)).1

/-- Lookup in the url-keyed association list (Map.get). -/
def urlLookup (m : List (String × Source)) (k : String) : Option Source :=
  (m.find? (fun p => decide (p.1 = k))).map (fun p => p.2)

/-- Helper: looking up after a set returns the new value at the set key
and is unchanged elsewhere. -/
theorem urlLookup_mapSet (m : List (String × Source)) (k : String) (v : Source)
    (k2 : String) :
    urlLookup (mapSet m k v) k2 = if k2 = k then some v else urlLookup m k2 := by
  induction m with
  | nil =>
      simp only [mapSet, urlLookup, List.find?]
      by_cases h : k2 = k
      · subst h
        rw [decide_eq_true rfl]
        simp
      · rw [decide_eq_false (fun hc => h hc.symm)]
        simp [h]
  | cons p rest ih =>
      by_cases hp : p.1 = k
      · rw [mapSet, if_pos hp]
        simp only [urlLookup, List.find?]
        by_cases h : k2 = k
        · subst h
          rw [decide_eq_true rfl]
          simp
        · rw [decide_eq_false (fun hc => h hc.symm), if_neg h,
            decide_eq_false (fun hc => h (hc.symm.trans hp))]
      · rw [mapSet, if_neg hp]
        simp only [urlLookup, List.find?] at ih ⊢
        by_cases h2 : p.1 = k2
        · rw [decide_eq_true h2]
          have hk : ¬ k2 = k := fun hc => hp (h2.trans hc)
          rw [if_neg hk]
        · rw [decide_eq_false h2]
          exact ih

/-- Helper: the keys that can appear after a set are the old keys plus the
set key. -/
theorem keys_mapSet_subset (m : List (String × Source)) (k : String) (v : Source) :
    ∀ x ∈ (mapSet m k v).map (fun p => p.1), x ∈ m.map (fun p => p.1) ∨ x = k := by
  induction m with
  | nil =>
      intro x hx
      simp [mapSet] at hx
      exact Or.inr hx
  | cons p rest ih =>
      intro x hx
      unfold mapSet at hx
      split_ifs at hx with hp
      · simp at hx
        rcases hx with hx | hx
        · exact Or.inr hx
        · exact Or.inl (by simp [hx])
      · simp at hx
        rcases hx with hx | hx
        · exact Or.inl (by simp [hx])
        · rcases ih x (by simpa using hx) with h | h
          · exact Or.inl (by simp at h ⊢; exact Or.inr h)
          · exact Or.inr h

/-- Helper: setting preserves key distinctness. -/
theorem keys_nodup_mapSet (m : List (String × Source)) (k : String) (v : Source)
    (hm : (m.map (fun p => p.1)).Nodup) :
    ((mapSet m k v).map (fun p => p.1)).Nodup := by
  induction m with
  | nil => simp [mapSet]
  | cons p rest ih =>
      rw [List.map_cons, List.nodup_cons] at hm
      unfold mapSet
      split_ifs with hp
      · rw [List.map_cons, List.nodup_cons]
        exact ⟨hp ▸ hm.1, hm.2⟩
      · rw [List.map_cons, List.nodup_cons]
        refine ⟨?_, ih hm.2⟩
        intro hmem
        rcases keys_mapSet_subset rest k v p.1 hmem with h | h
        · exact hm.1 h
        · exact hp h

/-- Helper: every entry of a map built by setting source records under
their own URLs is keyed by its value URL. -/
theorem coherent_foldl (ss : List Source) :
    ∀ (m : List (String × Source)), (∀ p ∈ m, p.2.url = p.1) →
      ∀ p ∈ ss.foldl sourceMapInsert m, p.2.url = p.1 := by
  induction ss with
  | nil => intro m hm; exact hm
  | cons s rest ih =>
      intro m hm
      rw [List.foldl_cons]
      refine ih (sourceMapInsert m s) ?_
      unfold sourceMapInsert
      intro p
      induction m with
      | nil =>
          intro hp
          simp [mapSet] at hp
          simp [hp]
      | cons q qs ihq =>
          intro hp
          unfold mapSet at hp
          split_ifs at hp with hq
          · rcases List.mem_cons.1 hp with hp | hp
            · simp [hp]
            · exact hm p (List.mem_cons_of_mem q hp)
          · rcases List.mem_cons.1 hp with hp | hp
            · exact hm p (hp ▸ List.mem_cons_self q qs)
            · exact ihq (fun r hr => hm r (List.mem_cons_of_mem q hr)) hp

/-- Helper: keys stay distinct while folding source insertions. -/
theorem keys_nodup_foldl (ss : List Source) :
    ∀ (m : List (String × Source)), ((m.map (fun p => p.1)).Nodup) →
      (((ss.foldl sourceMapInsert m).map (fun p => p.1)).Nodup) := by
  induction ss with
  | nil => intro m hm; exact hm
  | cons s rest ih =>
      intro m hm
      rw [List.foldl_cons]
      exact ih _ (keys_nodup_mapSet m s.url s hm)

/-- Helper: when the stream holds no record for a key, folding it leaves
the lookup at that key unchanged. -/
theorem urlLookup_foldl_of_filter_nil (ss : List Source) :
    ∀ (m : List (String × Source)) (k : String),
      ss.filter (fun t => decide (t.url = k)) = [] →
      urlLookup (ss.foldl sourceMapInsert m) k = urlLookup m k := by
  induction ss with
  | nil => intro m k _; rfl
  | cons s rest ih =>
      intro m k hf
      rw [List.filter_cons] at hf
      by_cases hs : s.url = k
      · rw [if_pos (decide_eq_true hs)] at hf
        cases hf
      · rw [if_neg (by simp [hs])] at hf
        rw [List.foldl_cons, ih (sourceMapInsert m s) k hf]
        unfold sourceMapInsert
        rw [urlLookup_mapSet, if_neg (fun hc => hs hc.symm)]

/-- Helper: when the stream does hold records for a key, folding it makes
the lookup return the last such record. -/
theorem urlLookup_foldl_of_filter_last (ss : List Source) :
    ∀ (m : List (String × Source)) (k : String) (t : Source),
      (ss.filter (fun x => decide (x.url = k))).getLast? = some t →
      urlLookup (ss.foldl sourceMapInsert m) k = some t := by
  induction ss with
  | nil =>
      intro m k t h
      rw [List.filter_nil, List.getLast?_nil] at h
      cases h
  | cons s rest ih =>
      intro m k t h
      rw [List.filter_cons] at h
      cases hfr : rest.filter (fun x => decide (x.url = k)) with
      | nil =>
          by_cases hs : s.url = k
          · rw [if_pos (decide_eq_true hs), hfr, List.getLast?_singleton] at h
            cases h
            rw [List.foldl_cons, urlLookup_foldl_of_filter_nil rest _ k hfr]
            unfold sourceMapInsert
            rw [urlLookup_mapSet, if_pos hs.symm]
          · rw [if_neg (by simp [hs]), hfr, List.getLast?_nil] at h
            cases h
      | cons a tl =>
          have hlast : (rest.filter (fun x => decide (x.url = k))).getLast? = some t := by
            by_cases hs : s.url = k
            · rw [if_pos (decide_eq_true hs), hfr, List.getLast?_cons_cons] at h
              rw [hfr]
              exact h
            · rw [if_neg (by simp [hs]), hfr] at h
              rw [hfr]
              exact h
          rw [List.foldl_cons]
          exact ih (sourceMapInsert m s) k t hlast

/-- Helper: a member of a nodup-keyed map is what lookup at its key
returns. -/
theorem urlLookup_of_mem (m : List (String × Source))
    (hm : (m.map (fun p => p.1)).Nodup) (p : String × Source) (hp : p ∈ m) :
    urlLookup m p.1 = some p.2 := by
  induction m with
  | nil => cases hp
  | cons q rest ih =>
      rw [List.map_cons, List.nodup_cons] at hm
      rcases List.mem_cons.1 hp with hp | hp
      · subst hp
        simp only [urlLookup, List.find?, decide_eq_true rfl]
        rfl
      · have hqp : q.1 ≠ p.1 := by
          intro hc
          exact hm.1 (hc ▸ List.mem_map_of_mem (fun r => r.1) hp)
        simp only [urlLookup, List.find?, decide_eq_false hqp] at ih ⊢
        exact ih hm.2 hp

/-- Helper: the deduplicated list has pairwise distinct URLs and keeps,
for each URL, the last record of the input stream with that URL. -/
theorem dedupByUrl_spec (ss : List Source) :
    ((dedupByUrl ss).map (fun s => s.url)).Nodup
    ∧ ∀ s ∈ dedupByUrl ss,
        (ss.filter (fun t => decide (t.url = s.url))).getLast? = some s := by
  constructor
  · unfold dedupByUrl
    have hco := coherent_foldl ss [] (by intro p hp; cases hp)
    have hkeys := keys_nodup_foldl ss [] (by simp)
    have hmap : (ss.foldl sourceMapInsert []).map ((fun s => s.url) ∘ (fun p => p.2))
        = (ss.foldl sourceMapInsert []).map (fun p => p.1) :=
      List.map_congr_left (fun p hp => hco p hp)
    rw [List.map_map, hmap]
    exact hkeys
  · intro s hs
    unfold dedupByUrl at hs
    rcases List.mem_map.1 hs with ⟨p, hpmem, hps⟩
    have hco := coherent_foldl ss [] (by intro q hq; cases hq) p hpmem
    have hkeys := keys_nodup_foldl ss [] (by simp)
    have hlook := urlLookup_of_mem _ hkeys p hpmem
    have hurl : s.url = p.1 := by rw [← hps]; exact hco
    rw [hurl]
    cases hlast : (ss.filter (fun t => decide (t.url = p.1))).getLast? with
    | some t =>
        have := urlLookup_foldl_of_filter_last ss [] p.1 t hlast
        rw [hlook] at this
        cases this
        rw [hps]
    | none =>
        have hnil : ss.filter (fun t => decide (t.url = p.1)) = [] := by
          cases hf : ss.filter (fun t => decide (t.url = p.1)) with
          | nil => rfl
          | cons a tl => rw [hf] at hlast; simp at hlast
        have := urlLookup_foldl_of_filter_nil ss [] p.1 hnil
        rw [hlook] at this
        cases this

/-- Helper: one reducer step preserves the dedup and last-write
invariants relative to the stream of all records merged so far. -/
theorem sourcesReducer_step (l X : List Source) (u : Option (List Source))
    (hnd : (l.map (fun s => s.url)).Nodup)
    (hlast : ∀ s ∈ l, (X.filter (fun t => decide (t.url = s.url))).getLast? = some s) :
    (((sourcesReducer l u).map (fun s => s.url)).Nodup)
    ∧ ∀ s ∈ sourcesReducer l u,
        (((X ++ u.getD []).filter (fun t => decide (t.url = s.url))).getLast? = some s) := by
  cases u with
  | none =>
      refine ⟨hnd, ?_⟩
      intro s hs
      rw [show X ++ ((none : Option (List Source)).getD []) = X by simp]
      exact hlast s hs
  | some us =>
      refine ⟨(dedupByUrl_spec (l ++ us)).1, ?_⟩
      intro s hs
      have hmem := (dedupByUrl_spec (l ++ us)).2 s hs
      rw [List.filter_append] at hmem
      rw [show ((some us : Option (List Source)).getD []) = us by rfl, List.filter_append]
      cases hus : us.filter (fun t => decide (t.url = s.url)) with
      | nil =>
          rw [hus, List.append_nil] at hmem
          rw [List.append_nil]
          have hsl : s ∈ l := by
            have hmemf : s ∈ l.filter (fun t => decide (t.url = s.url)) :=
              List.mem_of_mem_getLast? (by rw [hmem]; rfl)
            exact List.mem_of_mem_filter hmemf
          exact hlast s hsl
      | cons a tl =>
          rw [hus] at hmem
          rw [List.getLast?_append_of_ne_nil _ (by simp)] at hmem
          rw [List.getLast?_append_of_ne_nil _ (by simp)]
          exact hmem

/-- Helper: folding any batch sequence through the sources reducer keeps
URLs distinct and values last-written, relative to the concatenation of
all merged batches. -/
theorem sourcesReducer_foldl (batches : List (Option (List Source))) :
    ∀ (l X : List Source),
      ((l.map (fun s => s.url)).Nodup) →
      (∀ s ∈ l, (X.filter (fun t => decide (t.url = s.url))).getLast? = some s) →
      (((batches.foldl sourcesReducer l).map (fun s => s.url)).Nodup)
      ∧ ∀ s ∈ batches.foldl sourcesReducer l,
          (((X ++ (batches.map (fun b => b.getD [])).flatten).filter
              (fun t => decide (t.url = s.url))).getLast? = some s) := by
  induction batches with
  | nil =>
      intro l X hnd hlast
      refine ⟨hnd, ?_⟩
      intro s hs
      rw [show X ++ (([] : List (Option (List Source))).map
          (fun b => b.getD [])).flatten = X by simp]
      exact hlast s hs
  | cons b rest ih =>
      intro l X hnd hlast
      rw [List.foldl_cons]
      have hstep := sourcesReducer_step l X b hnd hlast
      have := ih (sourcesReducer l b) (X ++ b.getD []) hstep.1 hstep.2
      refine ⟨this.1, ?_⟩
      intro s hs
      have h2 := this.2 s hs
      rw [List.map_cons, List.flatten_cons, ← List.append_assoc]
      exact h2

/-- C3: source dedup invariant. Folding any sequence of source batches
through the sources channel reducer yields a list with pairwise distinct
URLs in which the entry kept for each URL is the most recently merged
record with that URL; and the analyze-node re-merge of sources and
scrapedSources has the same two properties with scraped records acting as
the more recent writes. -/
theorem sources_dedup_invariant :
    (∀ (batches : List (Option (List Source))),
      (((batches.foldl sourcesReducer []).map (fun s => s.url)).Nodup)
      ∧ ∀ s ∈ batches.foldl sourcesReducer [],
          ((((batches.map (fun b => b.getD [])).flatten).filter
              (fun t => decide (t.url = s.url))).getLast? = some s))
    ∧ ∀ (srcs scraped : List Source),
        (((analyzeMergedSources srcs scraped).map (fun s => s.url)).Nodup)
        ∧ ∀ s ∈ analyzeMergedSources srcs scraped,
            (((srcs ++ scraped).filter (fun t => decide (t.url = s.url))).getLast?
              = some s) := by
  constructor
  · intro batches
    obtain ⟨h1, h2⟩ := sourcesReducer_foldl batches [] []
      (by simp) (by intro s hs; cases hs)
    refine ⟨h1, ?_⟩
    intro s hs
    have h3 := h2 s hs
    rwa [List.nil_append] at h3
  · intro srcs scraped
    have hmerge : analyzeMergedSources srcs scraped = dedupByUrl (srcs ++ scraped) := by
      unfold analyzeMergedSources dedupByUrl
      rw [List.foldl_append]
    rw [hmerge]
    exact dedupByUrl_spec (srcs ++ scraped)

/-- Witness for C3 at a concrete batch sequence with a repeated URL: the
second record for the URL wins and URLs are unique. -/
theorem sources_dedup_invariant_witness :
    ((([some [⟨"u1", "t1", none, none, none⟩],
        some [⟨"u1", "t2", none, none, none⟩, ⟨"u2", "t3", none, none, none⟩]]
        : List (Option (List Source))).foldl sourcesReducer []).map
        (fun s => s.url)).Nodup :=
  (sources_dedup_invariant.1
    [some [⟨"u1", "t1", none, none, none⟩],
     some [⟨"u1", "t2", none, none, none⟩, ⟨"u2", "t3", none, none, none⟩]]).1

/-- Helper: when the selected agent executes the task successfully in the
phase-1 loop, the slot is filled, the task emits its two data-shared
events and the trace records one start and one settlement. -/
theorem runGatherTask_ok (h : AgentHub)
    (exec : String → String → Except String TaskResult) (spec : TaskSpec)
    (r : TaskResult)
    (ho : taskExecOutcome h exec spec.type spec.priority = some (Except.ok r)) :
    runGatherTask h exec spec =
      (some r,
       [⟨AgentEventType.dataShared, "coordinator"⟩,
        ⟨AgentEventType.dataShared, "coordinator"⟩],
       [ExecMark.started spec.type, ExecMark.settled spec.type]) := by
  unfold taskExecOutcome at ho
  unfold runGatherTask
  by_cases hemp : (h.findSuitableAgentsInternal spec.type).isEmpty = true
  · rw [if_pos hemp] at ho
    exact Option.noConfusion ho
  · rw [if_neg hemp] at ho
    rw [if_neg hemp]
    cases hsel : selectBestAgentInternal (h.findSuitableAgentsInternal spec.type)
        spec.priority with
    | none =>
        rw [hsel] at ho
        exact Option.noConfusion ho
    | some sel =>
        rw [hsel] at ho
        dsimp only at ho ⊢
        cases hagent : h.getAgent sel.id with
        | none =>
            rw [hagent] at ho
            exact Option.noConfusion ho
        | some a =>
            rw [hagent] at ho
            dsimp only at ho ⊢
            cases hex : exec a.agent.id spec.type with
            | ok r2 =>
                rw [hex] at ho
                have hr := Except.ok.inj (Option.some.inj ho)
                rw [hr]
            | error e2 =>
                rw [hex] at ho
                exact Except.noConfusion (Option.some.inj ho)

/-- Helper: when the selected agent throws in the phase-1 loop, the slot
stays empty, one agent-error event is emitted after the executing event,
and the trace still records the start and the settlement. -/
theorem runGatherTask_error (h : AgentHub)
    (exec : String → String → Except String TaskResult) (spec : TaskSpec)
    (e : String)
    (ho : taskExecOutcome h exec spec.type spec.priority = some (Except.error e)) :
    runGatherTask h exec spec =
      (none,
       [⟨AgentEventType.dataShared, "coordinator"⟩,
        ⟨AgentEventType.agentError, "coordinator"⟩],
       [ExecMark.started spec.type, ExecMark.settled spec.type]) := by
  unfold taskExecOutcome at ho
  unfold runGatherTask
  by_cases hemp : (h.findSuitableAgentsInternal spec.type).isEmpty = true
  · rw [if_pos hemp] at ho
    exact Option.noConfusion ho
  · rw [if_neg hemp] at ho
    rw [if_neg hemp]
    cases hsel : selectBestAgentInternal (h.findSuitableAgentsInternal spec.type)
        spec.priority with
    | none =>
        rw [hsel] at ho
        exact Option.noConfusion ho
    | some sel =>
        rw [hsel] at ho
        dsimp only at ho ⊢
        cases hagent : h.getAgent sel.id with
        | none =>
            rw [hagent] at ho
            exact Option.noConfusion ho
        | some a =>
            rw [hagent] at ho
            dsimp only at ho ⊢
            cases hex : exec a.agent.id spec.type with
            | ok r2 =>
                rw [hex] at ho
                exact Except.noConfusion (Option.some.inj ho)
            | error e2 => rfl

/-- Helper: the phase-2 target task emits no agent-error event whenever
its execution outcome is not a caught throw (skipped or successful). -/
theorem runTargetTask_no_error (h : AgentHub)
    (exec : String → String → Except String TaskResult) (spec : TaskSpec)
    (ho : ∀ e, taskExecOutcome h exec spec.type spec.priority ≠
        some (Except.error e)) :
    ((runTargetTask h exec spec).2.1.filter
        (fun ev => decide (ev.type = AgentEventType.agentError))).length = 0 := by
  unfold taskExecOutcome at ho
  unfold runTargetTask
  by_cases hemp : (h.findSuitableAgentsInternal spec.type).isEmpty = true
  · rw [if_pos hemp]
    rfl
  · simp only [if_neg hemp] at ho
    rw [if_neg hemp]
    cases hsel : selectBestAgentInternal (h.findSuitableAgentsInternal spec.type)
        spec.priority with
    | none => rfl
    | some sel =>
        rw [hsel] at ho
        dsimp only at ho ⊢
        cases hagent : h.getAgent sel.id with
        | none => rfl
        | some a =>
            rw [hagent] at ho
            dsimp only at ho ⊢
            cases hex : exec a.agent.id spec.type with
            | ok r => rfl
            | error e2 =>
                rw [hex] at ho
                exact absurd rfl (ho e2)

/-- C1: partial-failure isolation of the coordination fan-out. In every
coordinateICPAnalysis run where the gathering tasks all resolve to an
agent, task #3 (firmographic-analysis) throws and the other four succeed,
and the phase-2 task does not throw: the returned CombinedResearchData
holds the four successful results, the firmographic slot is absent, the
run emits exactly one agent-error event, and every one of the five tasks
was still started (no sibling aborted). -/
theorem coordinate_partial_failure
    (h : AgentHub) (exec : String → String → Except String TaskResult)
    (query : String) (srcs : List String)
    (rci rmr rta rpa : TaskResult) (msg : String)
    (hci : taskExecOutcome h exec "customer-intelligence"
        h.config.priorityWeights.customerIntelligence = some (Except.ok rci))
    (hmr : taskExecOutcome h exec "market-research"
        h.config.priorityWeights.marketResearch = some (Except.ok rmr))
    (hfa : taskExecOutcome h exec "firmographic-analysis"
        h.config.priorityWeights.firmographic = some (Except.error msg))
    (hta : taskExecOutcome h exec "technographic-analysis"
        h.config.priorityWeights.technographic = some (Except.ok rta))
    (hpa : taskExecOutcome h exec "psychographic-analysis"
        h.config.priorityWeights.psychographic = some (Except.ok rpa))
    (hp2 : ∀ e, taskExecOutcome h exec "target-company-discovery"
        h.config.priorityWeights.targetCompany ≠ some (Except.error e)) :
    (coordinateICPAnalysis h exec query srcs).1.customerIntelligence = some rci
    ∧ (coordinateICPAnalysis h exec query srcs).1.marketResearch = some rmr
    ∧ (coordinateICPAnalysis h exec query srcs).1.firmographicData = none
    ∧ (coordinateICPAnalysis h exec query srcs).1.technographicData = some rta
    ∧ (coordinateICPAnalysis h exec query srcs).1.psychographicData = some rpa
    ∧ ((coordinateICPAnalysis h exec query srcs).2.1.filter
        (fun ev => decide (ev.type = AgentEventType.agentError))).length = 1
    ∧ ∀ t ∈ ["customer-intelligence", "market-research", "firmographic-analysis",
        "technographic-analysis", "psychographic-analysis"],
        ExecMark.started t ∈ (coordinateICPAnalysis h exec query srcs).2.2 := by
  have h1 := runGatherTask_ok h exec
    ⟨"customer-intelligence", TaskInput.gather query srcs,
      h.config.priorityWeights.customerIntelligence⟩ rci hci
  have h2 := runGatherTask_ok h exec
    ⟨"market-research", TaskInput.gather query srcs,
      h.config.priorityWeights.marketResearch⟩ rmr hmr
  have h3 := runGatherTask_error h exec
    ⟨"firmographic-analysis", TaskInput.gather query srcs,
      h.config.priorityWeights.firmographic⟩ msg hfa
  have h4 := runGatherTask_ok h exec
    ⟨"technographic-analysis", TaskInput.gather query srcs,
      h.config.priorityWeights.technographic⟩ rta hta
  have h5 := runGatherTask_ok h exec
    ⟨"psychographic-analysis", TaskInput.gather query srcs,
      h.config.priorityWeights.psychographic⟩ rpa hpa
  have hno := runTargetTask_no_error h exec
    ⟨"target-company-discovery",
     TaskInput.discovery query
       (recordGet (recordSet (recordSet (recordSet (recordSet []
          "customer-intelligence" rci) "market-research" rmr)
          "technographic-analysis" rta) "psychographic-analysis" rpa)
          "customer-intelligence")
       (recordGet (recordSet (recordSet (recordSet (recordSet []
          "customer-intelligence" rci) "market-research" rmr)
          "technographic-analysis" rta) "psychographic-analysis" rpa)
          "market-research")
       (recordGet (recordSet (recordSet (recordSet (recordSet []
          "customer-intelligence" rci) "market-research" rmr)
          "technographic-analysis" rta) "psychographic-analysis" rpa)
          "firmographic-analysis"),
     h.config.priorityWeights.targetCompany⟩ hp2
  simp only [coordinateICPAnalysis, dataGatheringTasks, List.foldl_cons,
    List.foldl_nil, h1, h2, h3, h4, h5]
  simp only [recordSet, recordGet, List.any_cons, List.any_nil, List.find?]
  refine ⟨by simp, by simp, by simp, by simp, by simp, ?_, by simp⟩
  simp only [List.filter_append, List.filter_cons, List.filter_nil,
    List.length_append]
  simp only [recordSet, recordGet, List.any_cons, List.any_nil, List.find?] at hno
  rw [hno]
  simp

/-- Witness for C1 on the test hub, with an exec oracle that throws
exactly on the firmographic task: the firmographic slot of the combined
data is absent. -/
theorem coordinate_partial_failure_witness :
    (coordinateICPAnalysis testHub
        (fun _ t => if t = "firmographic-analysis" then Except.error "boom"
          else Except.ok ⟨none, "ok"⟩) "q" []).1.firmographicData = none ∧
    ((coordinateICPAnalysis testHub
        (fun _ t => if t = "firmographic-analysis" then Except.error "boom"
          else Except.ok ⟨none, "ok"⟩) "q" []).2.1.filter
        (fun ev => decide (ev.type = AgentEventType.agentError))).length = 1 := by
  have hall := coordinate_partial_failure testHub
    (fun _ t => if t = "firmographic-analysis" then Except.error "boom"
      else Except.ok ⟨none, "ok"⟩) "q" []
    ⟨none, "ok"⟩ ⟨none, "ok"⟩ ⟨none, "ok"⟩ ⟨none, "ok"⟩ "boom"
    (by rfl) (by rfl) (by rfl) (by rfl) (by rfl)
    (fun e he => Except.noConfusion (Option.some.inj he))
  exact ⟨hall.2.2.1, hall.2.2.2.2.2.1⟩

/-- C2 evaluation: on the test hub, the executeTask invocation trace of a
full coordination run is strictly sequential — each gathering task settles
before the next one starts, in the listed order, contradicting the
parallel fan-out the surrounding comments and events describe. -/
theorem coordinate_trace_sequential :
    (coordinateICPAnalysis testHub (fun _ _ => Except.ok ⟨none, "ok"⟩)
        "q" []).2.2 =
      [ExecMark.started "customer-intelligence",
       ExecMark.settled "customer-intelligence",
       ExecMark.started "market-research",
       ExecMark.settled "market-research",
       ExecMark.started "firmographic-analysis",
       ExecMark.settled "firmographic-analysis",
       ExecMark.started "technographic-analysis",
       ExecMark.settled "technographic-analysis",
       ExecMark.started "psychographic-analysis",
       ExecMark.settled "psychographic-analysis",
       ExecMark.started "target-company-discovery",
       ExecMark.settled "target-company-discovery"] := by
  rfl

/-- Helper: END absorbs remaining fuel. -/
theorem steps_none (o : Oracle) (k t : Nat) (s : SearchState) :
    steps o k t none s = (t, none, s) := by
  cases k <;> rfl

/-- Helper: one fuel unit executes one node. -/
theorem steps_succ (o : Oracle) (k t : Nat) (n : Node) (s : SearchState) :
    steps o (k + 1) t (some n) s =
      steps o k (t + 1) (stepOnce o t n s).1 (stepOnce o t n s).2 := rfl

/-- Helper: runs compose over fuel addition. -/
theorem steps_trans (o : Oracle) (k1 : Nat) :
    ∀ (k2 t : Nat) (n : Node) (s : SearchState) (t1 : Nat) (n1 : Node)
      (s1 : SearchState) (res : Nat × Option Node × SearchState),
      steps o k1 t (some n) s = (t1, some n1, s1) →
      steps o k2 t1 (some n1) s1 = res →
      steps o (k1 + k2) t (some n) s = res := by
  induction k1 with
  | zero =>
      intro k2 t n s t1 n1 s1 res h1 h2
      rw [Nat.zero_add]
      have ht : t = t1 := congrArg Prod.fst h1
      have hrest := congrArg Prod.snd h1
      have hn : some n = some n1 := congrArg Prod.fst hrest
      have hs : s = s1 := congrArg Prod.snd hrest
      cases Option.some.inj hn
      cases ht
      cases hs
      exact h2
  | succ k ih =>
      intro k2 t n s t1 n1 s1 res h1 h2
      rw [Nat.succ_add, steps_succ]
      rw [steps_succ] at h1
      cases hr : (stepOnce o t n s).1 with
      | none =>
          rw [hr, steps_none] at h1
          exact Option.noConfusion (congrArg Prod.fst (congrArg Prod.snd h1))
      | some n2 =>
          rw [hr] at h1
          exact ih k2 (t + 1) n2 (stepOnce o t n s).2 t1 n1 s1 res h1 h2

/-- Helper: the rewritten sub-queries of the plan retry branch keep their
answered flags and confidences (only searchQuery changes). -/
theorem assignAltQueriesGo_preserves (qs : List String) :
    ∀ (rest : List SubQuery) (idx : Nat),
      (assignAltQueriesGo qs rest idx).length = rest.length ∧
      ∀ sq' ∈ assignAltQueriesGo qs rest idx,
        ∃ sq ∈ rest, sq'.answered = sq.answered ∧ sq'.confidence = sq.confidence := by
  intro rest
  induction rest with
  | nil => intro idx; exact ⟨rfl, by intro sq' h; cases h⟩
  | cons sq tail ih =>
      intro idx
      unfold assignAltQueriesGo
      split_ifs with hu hlt
      · refine ⟨by simpa using (ih (idx + 1)).1, ?_⟩
        intro sq' hmem
        rcases List.mem_cons.1 hmem with hmem | hmem
        · exact ⟨sq, List.mem_cons_self sq tail, by rw [hmem], by rw [hmem]⟩
        · rcases (ih (idx + 1)).2 sq' hmem with ⟨sq0, hsq0, hsq0a, hsq0c⟩
          exact ⟨sq0, List.mem_cons_of_mem sq hsq0, hsq0a, hsq0c⟩
      · refine ⟨by simpa using (ih idx).1, ?_⟩
        intro sq' hmem
        rcases List.mem_cons.1 hmem with hmem | hmem
        · exact ⟨sq, List.mem_cons_self sq tail, by rw [hmem], by rw [hmem]⟩
        · rcases (ih idx).2 sq' hmem with ⟨sq0, hsq0, hsq0a, hsq0c⟩
          exact ⟨sq0, List.mem_cons_of_mem sq hsq0, hsq0a, hsq0c⟩
      · refine ⟨by simpa using (ih idx).1, ?_⟩
        intro sq' hmem
        rcases List.mem_cons.1 hmem with hmem | hmem
        · exact ⟨sq, List.mem_cons_self sq tail, by rw [hmem], by rw [hmem]⟩
        · rcases (ih idx).2 sq' hmem with ⟨sq0, hsq0, hsq0a, hsq0c⟩
          exact ⟨sq0, List.mem_cons_of_mem sq hsq0, hsq0a, hsq0c⟩

/-- Helper: a search-node visit past the end of the query list moves to
the scrape node without touching anything else. -/
theorem stepOnce_search_done (o : Oracle) (t : Nat) (s : SearchState)
    (qs : List String) (hq : s.searchQueries = some qs)
    (hi : qs.length ≤ s.currentSearchIndex) :
    stepOnce o t Node.search s =
      (some Node.scrape, { s with phase := SearchPhase.scrape }) := by
  simp only [stepOnce, searchNode, nextNode, hq, Option.getD_some]
  rw [if_pos hi]
  simp [hq, Nat.not_lt.2 hi]

/-- Helper: a failing search-node visit inside the loop advances the
index, tags errorType search, leaves the phase alone, and loops or exits
the loop according to the remaining queries. -/
theorem stepOnce_search_fail (o : Oracle) (t : Nat) (s : SearchState)
    (qs : List String) (e : String) (hq : s.searchQueries = some qs)
    (hi : s.currentSearchIndex < qs.length)
    (he : o.searchCallRes t = Except.error e)
    (hph : s.phase ≠ SearchPhase.error) :
    stepOnce o t Node.search s =
      ((if s.currentSearchIndex + 1 < qs.length then some Node.search
        else some Node.scrape),
       { s with currentSearchIndex := s.currentSearchIndex + 1,
                errorType := some ErrorType.search }) := by
  simp only [stepOnce, searchNode, nextNode, hq, Option.getD_some, he]
  rw [if_neg (Nat.not_le.2 hi)]
  simp [hq, hph]

/-- Helper: with every search call failing, the search loop terminates at
the scrape node with the accumulating fields untouched. -/
theorem search_loop_all_fail (o : Oracle)
    (hsearch : ∀ u, ∃ e, o.searchCallRes u = Except.error e) :
    ∀ (n : Nat) (qs : List String) (t : Nat) (s : SearchState),
      s.searchQueries = some qs → qs.length - s.currentSearchIndex = n →
      s.phase ≠ SearchPhase.error →
      ∃ (k : Nat) (s2 : SearchState),
        steps o k t (some Node.search) s = (t + k, some Node.scrape, s2)
        ∧ s2.sources = s.sources ∧ s2.scrapedSources = s.scrapedSources
        ∧ s2.subQueries = s.subQueries ∧ s2.retryCount = s.retryCount
        ∧ s2.searchAttempt = s.searchAttempt ∧ s2.maxRetries = s.maxRetries
        ∧ s2.query = s.query ∧ s2.phase ≠ SearchPhase.error := by
  intro n
  induction n with
  | zero =>
      intro qs t s hq hn hph
      have hi : qs.length ≤ s.currentSearchIndex := by omega
      refine ⟨1, { s with phase := SearchPhase.scrape }, ?_, rfl, rfl, rfl, rfl,
        rfl, rfl, rfl, by simp⟩
      rw [steps_succ, stepOnce_search_done o t s qs hq hi]
      rfl
  | succ n ih =>
      intro qs t s hq hn hph
      have hi : s.currentSearchIndex < qs.length := by omega
      obtain ⟨e, he⟩ := hsearch t
      have hstep := stepOnce_search_fail o t s qs e hq hi he hph
      by_cases hlt : s.currentSearchIndex + 1 < qs.length
      · rw [if_pos hlt] at hstep
        obtain ⟨k, s2, hrun, hp1, hp2, hp3, hp4, hp5, hp6, hp7, hp8⟩ :=
          ih qs (t + 1)
            { s with currentSearchIndex := s.currentSearchIndex + 1,
                     errorType := some ErrorType.search }
            hq (by simp; omega) hph
        refine ⟨1 + k, s2, ?_, hp1, hp2, hp3, hp4, hp5, hp6, hp7, hp8⟩
        have hone : steps o 1 t (some Node.search) s =
            (t + 1, some Node.search,
             { s with currentSearchIndex := s.currentSearchIndex + 1,
                      errorType := some ErrorType.search }) := by
          rw [steps_succ, hstep]
          rfl
        have := steps_trans o 1 k t Node.search s (t + 1) Node.search
          { s with currentSearchIndex := s.currentSearchIndex + 1,
                   errorType := some ErrorType.search }
          (t + 1 + k, some Node.scrape, s2) hone hrun
        rw [this]
        have harith : t + 1 + k = t + (1 + k) := by omega
        rw [harith]
      · rw [if_neg hlt] at hstep
        refine ⟨1,
          { s with currentSearchIndex := s.currentSearchIndex + 1,
                   errorType := some ErrorType.search },
          ?_, rfl, rfl, rfl, rfl, rfl, rfl, rfl, hph⟩
        rw [steps_succ, hstep]
        rfl

/-- Helper: a sub-query list in which nothing is answered passes the
unanswered filter unchanged. -/
theorem filter_unanswered_all (l : List SubQuery)
    (hl : ∀ sq ∈ l, sq.answered = false) :
    l.filter unansweredCond = l := by
  apply List.filter_eq_self.2
  intro sq hsq
  unfold unansweredCond
  rw [hl sq hsq]
  simp

/-- Helper: when the (extracted or carried-over) sub-queries are all
unanswered and nonempty, the plan node resets the index and moves to the
searching phase with a sub-query list that is still nonempty and
unanswered. -/
theorem planNode_all_unanswered (ex : List (String × String)) (alt : List String)
    (s : SearchState) (sqs0 : List SubQuery)
    (hm : (match s.subQueries with
           | some sqs => sqs
           | none =>
              ex.map (fun p =>
                ({ question := p.1, searchQuery := p.2, answered := false,
                   answer := none, confidence := 0, sources := [] } : SubQuery)))
          = sqs0)
    (hne : sqs0 ≠ [])
    (hprops : ∀ sq ∈ sqs0, sq.answered = false ∧ sq.confidence = 0) :
    ∃ (sqs1 : List SubQuery) (qs1 : List String),
      planNode ex alt s =
        { s with searchQueries := some qs1, subQueries := some sqs1,
                 currentSearchIndex := 0, phase := SearchPhase.searching }
      ∧ sqs1 ≠ [] ∧ ∀ sq ∈ sqs1, sq.answered = false ∧ sq.confidence = 0 := by
  simp only [planNode]
  rw [hm]
  rw [filter_unanswered_all sqs0 (fun sq h => (hprops sq h).1)]
  have hie : sqs0.isEmpty = false := by
    cases sqs0 with
    | nil => exact absurd rfl hne
    | cons a l => rfl
  rw [hie, if_neg Bool.false_ne_true]
  by_cases hatt : 0 < s.searchAttempt
  · rw [if_pos hatt]
    refine ⟨assignAltQueries sqs0 alt, alt, rfl, ?_, ?_⟩
    · intro hc
      have hlen := (assignAltQueriesGo_preserves alt sqs0 0).1
      unfold assignAltQueries at hc
      rw [hc] at hlen
      exact hne (List.eq_nil_of_length_eq_zero hlen.symm)
    · intro sq hsq
      rcases (assignAltQueriesGo_preserves alt sqs0 0).2 sq hsq with
        ⟨sq0, hsq0, ha, hc⟩
      rcases hprops sq0 hsq0 with ⟨ha0, hc0⟩
      exact ⟨ha.trans ha0, hc.trans hc0⟩
  · rw [if_neg hatt]
    exact ⟨sqs0, sqs0.map (fun sq => sq.searchQuery), rfl, hne, hprops⟩

/-- Helper: on a state satisfying the failing-run invariant, the plan node
moves to the search node with a nonempty, still-unanswered sub-query list
and a reset search index, leaving the accumulators and counters alone. -/
theorem stepOnce_plan_inv (o : Oracle) (t : Nat) (s : SearchState)
    (hinv : FailRunInv s) (hex : o.extractSubQueriesRes t ≠ []) :
    ∃ (sqs1 : List SubQuery) (qs1 : List String),
      stepOnce o t Node.plan s =
        (some Node.search,
         { s with searchQueries := some qs1, subQueries := some sqs1,
                  currentSearchIndex := 0, phase := SearchPhase.searching })
      ∧ sqs1 ≠ [] ∧ ∀ sq ∈ sqs1, sq.answered = false ∧ sq.confidence = 0 := by
  obtain ⟨hsrc, hscr, hph, hsub⟩ := hinv
  have hshape : ∃ (sqs0 : List SubQuery),
      (match s.subQueries with
       | some sqs => sqs
       | none =>
          (o.extractSubQueriesRes t).map (fun p =>
            ({ question := p.1, searchQuery := p.2, answered := false,
               answer := none, confidence := 0, sources := [] } : SubQuery)))
        = sqs0
      ∧ sqs0 ≠ [] ∧ ∀ sq ∈ sqs0, sq.answered = false ∧ sq.confidence = 0 := by
    rcases hsub with hnone | ⟨sqs, hsome, hne, hprops⟩
    · refine ⟨(o.extractSubQueriesRes t).map (fun p =>
        ({ question := p.1, searchQuery := p.2, answered := false,
           answer := none, confidence := 0, sources := [] } : SubQuery)),
        by rw [hnone], ?_, ?_⟩
      · intro hc
        rw [List.map_eq_nil_iff] at hc
        exact hex hc
      · intro sq hsq
        rcases List.mem_map.1 hsq with ⟨p, _, hp⟩
        rw [← hp]
        exact ⟨rfl, rfl⟩
    · exact ⟨sqs, by rw [hsome], hne, hprops⟩
  obtain ⟨sqs0, hm, hne0, hprops0⟩ := hshape
  obtain ⟨sqs1, qs1, hplan, hne1, hprops1⟩ :=
    planNode_all_unanswered (o.extractSubQueriesRes t) (o.altQueriesRes t)
      s sqs0 hm hne0 hprops0
  refine ⟨sqs1, qs1, ?_, hne1, hprops1⟩
  simp only [stepOnce, hplan]
  simp [nextNode]

/-- Helper: a successful understand node moves to the plan node storing
the understanding. -/
theorem stepOnce_understand_ok (o : Oracle) (t : Nat) (s : SearchState)
    (u : String) (ho : o.analyzeQueryRes t = Except.ok u) :
    stepOnce o t Node.understand s =
      (some Node.plan,
       { s with understanding := some u, phase := SearchPhase.planning }) := by
  simp only [stepOnce, understandNode, ho]
  simp [nextNode]

/-- Helper: with no accumulated sources there is nothing to scrape, and
the scrape node moves on to the analyze node leaving both accumulators
empty. -/
theorem stepOnce_scrape_empty (o : Oracle) (t : Nat) (s : SearchState)
    (hsrc : s.sources = []) (hscr : s.scrapedSources = []) :
    stepOnce o t Node.scrape s =
      (some Node.analyze,
       { s with scrapedSources := [], phase := SearchPhase.analyzing }) := by
  simp only [stepOnce, scrapeNode, hsrc, hscr]
  simp only [List.filter_nil, List.take_nil, scrapeLoop, scrapedSourcesReducer,
    List.nil_append]
  simp [nextNode]

/-- Helper: on an empty source pool with a nonempty fully-unanswered
sub-query list, the analyze node either loops back to planning (attempt
budget left) or proceeds towards synthesis, incrementing the attempt
counter in both cases and touching no other counter. -/
theorem stepOnce_analyze_inv (o : Oracle) (t : Nat) (s : SearchState)
    (sqs : List SubQuery)
    (hsrc : s.sources = []) (hscr : s.scrapedSources = [])
    (hsub : s.subQueries = some sqs) (hne : sqs ≠ [])
    (hprops : ∀ sq ∈ sqs, sq.answered = false ∧ sq.confidence = 0) :
    (s.searchAttempt + 1 < MAX_SEARCH_ATTEMPTS →
      stepOnce o t Node.analyze s =
        (some Node.plan,
         { s with sources := [], subQueries := some sqs,
                  searchAttempt := s.searchAttempt + 1,
                  phase := SearchPhase.planning }))
    ∧ (¬ s.searchAttempt + 1 < MAX_SEARCH_ATTEMPTS →
        ∃ ps, stepOnce o t Node.analyze s =
          (some Node.synthesize,
           { s with sources := [], processedSources := some ps,
                    subQueries := some sqs,
                    searchAttempt := s.searchAttempt + 1,
                    phase := SearchPhase.synthesizing })) := by
  have hmerge : analyzeMergedSources s.sources s.scrapedSources = [] := by
    rw [hsrc, hscr]
    rfl
  have hcheck : ∀ r, checkAnswersUpdate sqs
      (analyzeMergedSources s.sources s.scrapedSources) r = sqs := by
    intro r
    rw [hmerge]
    rfl
  have hred : sourcesReducer s.sources
      (some (analyzeMergedSources s.sources s.scrapedSources)) = [] := by
    rw [hmerge, hsrc]
    rfl
  have hfa : sqs.filter (fun sq => sq.answered) = [] := by
    apply List.filter_eq_nil_iff.2
    intro sq hsq
    rw [(hprops sq hsq).1]
    simp
  have hfp : sqs.filter (fun sq => decide (MIN_ANSWER_CONFIDENCE ≤ sq.confidence))
      = [] := by
    apply List.filter_eq_nil_iff.2
    intro sq hsq
    rw [(hprops sq hsq).2]
    simp only [decide_eq_true_eq]
    decide
  have hlen : 0 < sqs.length := List.length_pos.2 hne
  constructor
  · intro hlt
    simp only [stepOnce, analyzeNode, hsub, hcheck, hred, hfa, hfp]
    rw [if_pos ⟨by simpa using hlen, hlt, by simp⟩]
    simp [nextNode]
  · intro hge
    simp only [stepOnce, analyzeNode, hsub, hcheck, hred, hfa, hfp]
    rw [if_neg ?_]
    · cases hproc : o.processSourcesRes t with
      | ok ps =>
          refine ⟨ps, ?_⟩
          simp [nextNode]
      | error e =>
          refine ⟨analyzeMergedSources s.sources s.scrapedSources, ?_⟩
          simp [nextNode]
    · intro hc
      exact hge hc.2.1

/-- Helper: a successful synthesize node stores the answer and moves to
the complete node. -/
theorem stepOnce_synthesize_ok (o : Oracle) (t : Nat) (s : SearchState)
    (ans : String) (fu : List String)
    (ho : o.synthesizeRes t = Except.ok (ans, fu)) :
    stepOnce o t Node.synthesize s =
      (some Node.complete,
       { s with finalAnswer := some ans, followUpQuestions := some fu,
                phase := SearchPhase.complete }) := by
  simp only [stepOnce, synthesizeNode, ho]
  simp [nextNode]

/-- Helper: the complete node terminates the run. -/
theorem stepOnce_complete (o : Oracle) (t : Nat) (s : SearchState) :
    stepOnce o t Node.complete s =
      (none, { s with phase := SearchPhase.complete }) := by
  simp [stepOnce, completeNode, nextNode]

/-- Helper: one full planning-searching-scraping-analyzing round of the
all-searches-fail run class. Within the attempt budget the machine
returns to the plan node with the invariant intact and the attempt
counter incremented; on the last attempt it runs on through synthesis and
terminates in the complete phase. The retry counter never moves. -/
theorem round_all_fail (o : Oracle) (ho : AllSearchFail o) (t : Nat)
    (s : SearchState) (hinv : FailRunInv s) :
    (s.searchAttempt + 1 < MAX_SEARCH_ATTEMPTS →
      ∃ k s2, steps o k t (some Node.plan) s = (t + k, some Node.plan, s2)
        ∧ FailRunInv s2 ∧ s2.searchAttempt = s.searchAttempt + 1
        ∧ s2.retryCount = s.retryCount ∧ s2.maxRetries = s.maxRetries)
    ∧ (¬ s.searchAttempt + 1 < MAX_SEARCH_ATTEMPTS →
      ∃ k s2, steps o k t (some Node.plan) s = (t + k, none, s2)
        ∧ s2.phase = SearchPhase.complete
        ∧ s2.searchAttempt = s.searchAttempt + 1
        ∧ s2.retryCount = s.retryCount) := by
  obtain ⟨hsearch, hllm, hext, hsynth⟩ := ho
  obtain ⟨sqs1, qs1, hplan, hne1, hprops1⟩ := stepOnce_plan_inv o t s hinv (hext t)
  have hrun1 : steps o 1 t (some Node.plan) s =
      (t + 1, some Node.search,
       { s with searchQueries := some qs1, subQueries := some sqs1,
                currentSearchIndex := 0, phase := SearchPhase.searching }) := by
    rw [steps_succ, hplan]
    rfl
  obtain ⟨k2, s2, hrun2, hs2src, hs2scr, hs2sub, hs2retry, hs2att, hs2max,
      hs2q, hs2ph⟩ :=
    search_loop_all_fail o hsearch qs1.length qs1 (t + 1)
      { s with searchQueries := some qs1, subQueries := some sqs1,
               currentSearchIndex := 0, phase := SearchPhase.searching }
      rfl (by simp) (by simp)
  have h2src : s2.sources = [] := by rw [hs2src]; exact hinv.1
  have h2scr : s2.scrapedSources = [] := by rw [hs2scr]; exact hinv.2.1
  have h2sub : s2.subQueries = some sqs1 := by rw [hs2sub]
  have h2att : s2.searchAttempt = s.searchAttempt := by rw [hs2att]
  have h2retry : s2.retryCount = s.retryCount := by rw [hs2retry]
  have h2max : s2.maxRetries = s.maxRetries := by rw [hs2max]
  have hrun3 : steps o 1 (t + 1 + k2) (some Node.scrape) s2 =
      (t + 1 + k2 + 1, some Node.analyze,
       { s2 with scrapedSources := [], phase := SearchPhase.analyzing }) := by
    rw [steps_succ, stepOnce_scrape_empty o (t + 1 + k2) s2 h2src h2scr]
    rfl
  have hana := stepOnce_analyze_inv o (t + 1 + k2 + 1)
    { s2 with scrapedSources := [], phase := SearchPhase.analyzing }
    sqs1 h2src rfl h2sub hne1 hprops1
  constructor
  · intro hlt
    have hlt3 : s2.searchAttempt + 1 < MAX_SEARCH_ATTEMPTS := by
      rw [h2att]
      exact hlt
    have hrun4 : steps o 1 (t + 1 + k2 + 1) (some Node.analyze)
        { s2 with scrapedSources := [], phase := SearchPhase.analyzing } =
        (t + 1 + k2 + 1 + 1, some Node.plan,
         { s2 with scrapedSources := [], sources := [],
                   subQueries := some sqs1,
                   searchAttempt := s2.searchAttempt + 1,
                   phase := SearchPhase.planning }) := by
      rw [steps_succ, hana.1 hlt3]
      rfl
    have hc34 := steps_trans o 1 1 (t + 1 + k2) Node.scrape s2
      (t + 1 + k2 + 1) Node.analyze
      { s2 with scrapedSources := [], phase := SearchPhase.analyzing }
      _ hrun3 hrun4
    have hc234 := steps_trans o k2 (1 + 1) (t + 1) Node.search
      { s with searchQueries := some qs1, subQueries := some sqs1,
               currentSearchIndex := 0, phase := SearchPhase.searching }
      (t + 1 + k2) Node.scrape s2 _ hrun2 hc34
    have hall := steps_trans o 1 (k2 + (1 + 1)) t Node.plan s
      (t + 1) Node.search
      { s with searchQueries := some qs1, subQueries := some sqs1,
               currentSearchIndex := 0, phase := SearchPhase.searching }
      _ hrun1 hc234
    refine ⟨1 + (k2 + (1 + 1)),
      { s2 with scrapedSources := [], sources := [],
                subQueries := some sqs1,
                searchAttempt := s2.searchAttempt + 1,
                phase := SearchPhase.planning }, ?_, ?_, ?_, ?_, ?_⟩
    · rw [hall]
      have harith : t + 1 + k2 + 1 + 1 = t + (1 + (k2 + (1 + 1))) := by omega
      rw [harith]
    · exact ⟨rfl, rfl, by simp, Or.inr ⟨sqs1, rfl, hne1, hprops1⟩⟩
    · show s2.searchAttempt + 1 = s.searchAttempt + 1
      rw [h2att]
    · exact h2retry
    · exact h2max
  · intro hge
    have hge3 : ¬ s2.searchAttempt + 1 < MAX_SEARCH_ATTEMPTS := by
      rw [h2att]
      exact hge
    obtain ⟨ps, hana2⟩ := hana.2 hge3
    have hrun4 : steps o 1 (t + 1 + k2 + 1) (some Node.analyze)
        { s2 with scrapedSources := [], phase := SearchPhase.analyzing } =
        (t + 1 + k2 + 1 + 1, some Node.synthesize,
         { s2 with scrapedSources := [], sources := [],
                   processedSources := some ps,
                   subQueries := some sqs1,
                   searchAttempt := s2.searchAttempt + 1,
                   phase := SearchPhase.synthesizing }) := by
      rw [steps_succ, hana2]
      rfl
    obtain ⟨r, hr⟩ := hsynth (t + 1 + k2 + 1 + 1)
    have hrun5 : steps o 1 (t + 1 + k2 + 1 + 1) (some Node.synthesize)
        { s2 with scrapedSources := [], sources := [],
                  processedSources := some ps,
                  subQueries := some sqs1,
                  searchAttempt := s2.searchAttempt + 1,
                  phase := SearchPhase.synthesizing } =
        (t + 1 + k2 + 1 + 1 + 1, some Node.complete,
         { s2 with scrapedSources := [], sources := [],
                   processedSources := some ps,
                   subQueries := some sqs1,
                   searchAttempt := s2.searchAttempt + 1,
                   finalAnswer := some r.1, followUpQuestions := some r.2,
                   phase := SearchPhase.complete }) := by
      rw [steps_succ, stepOnce_synthesize_ok o _ _ r.1 r.2 (by rw [hr])]
      rfl
    have hrun6 : steps o 1 (t + 1 + k2 + 1 + 1 + 1) (some Node.complete)
        { s2 with scrapedSources := [], sources := [],
                  processedSources := some ps,
                  subQueries := some sqs1,
                  searchAttempt := s2.searchAttempt + 1,
                  finalAnswer := some r.1, followUpQuestions := some r.2,
                  phase := SearchPhase.complete } =
        (t + 1 + k2 + 1 + 1 + 1 + 1, none,
         { s2 with scrapedSources := [], sources := [],
                   processedSources := some ps,
                   subQueries := some sqs1,
                   searchAttempt := s2.searchAttempt + 1,
                   finalAnswer := some r.1, followUpQuestions := some r.2,
                   phase := SearchPhase.complete }) := by
      rw [steps_succ, stepOnce_complete]
      rfl
    have hc56 := steps_trans o 1 1 (t + 1 + k2 + 1 + 1) Node.synthesize _
      (t + 1 + k2 + 1 + 1 + 1) Node.complete _ _ hrun5 hrun6
    have hc456 := steps_trans o 1 (1 + 1) (t + 1 + k2 + 1) Node.analyze _
      (t + 1 + k2 + 1 + 1) Node.synthesize _ _ hrun4 hc56
    have hc3456 := steps_trans o 1 (1 + (1 + 1)) (t + 1 + k2) Node.scrape s2
      (t + 1 + k2 + 1) Node.analyze _ _ hrun3 hc456
    have hc23456 := steps_trans o k2 (1 + (1 + (1 + 1))) (t + 1) Node.search
      { s with searchQueries := some qs1, subQueries := some sqs1,
               currentSearchIndex := 0, phase := SearchPhase.searching }
      (t + 1 + k2) Node.scrape s2 _ hrun2 hc3456
    have hall := steps_trans o 1 (k2 + (1 + (1 + (1 + 1)))) t Node.plan s
      (t + 1) Node.search
      { s with searchQueries := some qs1, subQueries := some sqs1,
               currentSearchIndex := 0, phase := SearchPhase.searching }
      _ hrun1 hc23456
    refine ⟨1 + (k2 + (1 + (1 + (1 + 1)))),
      { s2 with scrapedSources := [], sources := [],
                processedSources := some ps,
                subQueries := some sqs1,
                searchAttempt := s2.searchAttempt + 1,
                finalAnswer := some r.1, followUpQuestions := some r.2,
                phase := SearchPhase.complete }, ?_, rfl, ?_, ?_⟩
    · rw [hall]
      have harith : t + 1 + k2 + 1 + 1 + 1 + 1 =
          t + (1 + (k2 + (1 + (1 + (1 + 1))))) := by omega
      rw [harith]
    · show s2.searchAttempt + 1 = s.searchAttempt + 1
      rw [h2att]
    · exact h2retry

/-- C7 (amended). Retry budget termination, corrected: in every
phase-machine run in which every firecrawl search call throws (while the
LLM understanding, sub-query extraction and synthesis steps succeed), the
run terminates — but in the `complete` phase, not the `error` phase: the
search node catches its own failures without setting `phase: 'error'`, so
handleError is never entered, `retryCount` stays 0 (the maxRetries budget
is never consumed), and the bound on attempts is MAX_SEARCH_ATTEMPTS = 3
from the analyze node, not maxRetries + 1. -/
theorem search_fail_run_terminates_complete (o : Oracle) (q : String)
    (ho : AllSearchFail o) :
    ∃ k t2 s2,
      steps o k 0 (some Node.understand) (initialState q) = (t2, none, s2)
      ∧ s2.phase = SearchPhase.complete
      ∧ s2.phase ≠ SearchPhase.error
      ∧ s2.retryCount = 0
      ∧ s2.searchAttempt = MAX_SEARCH_ATTEMPTS := by
  obtain ⟨u, hu⟩ := ho.2.1 0
  have hrun0 : steps o 1 0 (some Node.understand) (initialState q) =
      (1, some Node.plan,
       { initialState q with understanding := some u,
                             phase := SearchPhase.planning }) := by
    rw [steps_succ, stepOnce_understand_ok o 0 (initialState q) u hu]
    rfl
  have hinv0 : FailRunInv
      { initialState q with understanding := some u,
                            phase := SearchPhase.planning } :=
    ⟨rfl, rfl, by simp, Or.inl rfl⟩
  obtain ⟨k1, s1, hrunA, hinv1, h1att, h1retry, h1max⟩ :=
    (round_all_fail o ho 1
      { initialState q with understanding := some u,
                            phase := SearchPhase.planning } hinv0).1
      (by show 0 + 1 < MAX_SEARCH_ATTEMPTS; decide)
  obtain ⟨k2, s2', hrunB, hinv2, h2att, h2retry, h2max⟩ :=
    (round_all_fail o ho (1 + k1) s1 hinv1).1
      (by rw [h1att]; show 0 + 1 + 1 < MAX_SEARCH_ATTEMPTS; decide)
  obtain ⟨k3, s3, hrunC, h3phase, h3att, h3retry⟩ :=
    (round_all_fail o ho (1 + k1 + k2) s2' hinv2).2
      (by rw [h2att, h1att]
          show ¬ 0 + 1 + 1 + 1 < MAX_SEARCH_ATTEMPTS
          decide)
  have hc23 := steps_trans o k2 k3 (1 + k1) Node.plan s1
    (1 + k1 + k2) Node.plan s2' _ hrunB hrunC
  have hc123 := steps_trans o k1 (k2 + k3) 1 Node.plan
    { initialState q with understanding := some u,
                          phase := SearchPhase.planning }
    (1 + k1) Node.plan s1 _ hrunA hc23
  have hall := steps_trans o 1 (k1 + (k2 + k3)) 0 Node.understand
    (initialState q) 1 Node.plan
    { initialState q with understanding := some u,
                          phase := SearchPhase.planning }
    _ hrun0 hc123
  refine ⟨1 + (k1 + (k2 + k3)), 1 + k1 + k2 + k3, s3, hall, h3phase, ?_, ?_, ?_⟩
  · rw [h3phase]
    simp
  · rw [h3retry, h2retry, h1retry]
    rfl
  · rw [h3att, h2att, h1att]
    rfl

/-- C7 (counterexample to the original wording). On the fixture oracle in
which every search call throws, the run from the initial state does reach
a terminal state, but its phase is `complete`, not the claimed terminal
`error` phase, and `retryCount` is still 0 rather than having consumed a
maxRetries + 1 attempt budget: search-node failures never route through
the handleError retry logic at all. -/
theorem search_fail_run_not_error_phase :
    (steps allSearchFailOracle 40 0 (some Node.understand)
        (initialState "q")).2.1 = none
    ∧ (steps allSearchFailOracle 40 0 (some Node.understand)
        (initialState "q")).2.2.phase = SearchPhase.complete
    ∧ (steps allSearchFailOracle 40 0 (some Node.understand)
        (initialState "q")).2.2.phase ≠ SearchPhase.error
    ∧ (steps allSearchFailOracle 40 0 (some Node.understand)
        (initialState "q")).2.2.retryCount = 0
    ∧ (steps allSearchFailOracle 40 0 (some Node.understand)
        (initialState "q")).2.2.searchAttempt = MAX_SEARCH_ATTEMPTS := by
  refine ⟨rfl, rfl, ?_, rfl, rfl⟩
  have hph : (steps allSearchFailOracle 40 0 (some Node.understand)
      (initialState "q")).2.2.phase = SearchPhase.complete := rfl
  rw [hph]
  simp

/-- C7 witness: the amended theorem applied to the concrete fixture
oracle, with the AllSearchFail hypothesis discharged by construction. -/
theorem search_fail_run_terminates_complete_witness :
    AllSearchFail allSearchFailOracle ∧
    ∃ k t2 s2,
      steps allSearchFailOracle k 0 (some Node.understand)
          (initialState "q") = (t2, none, s2)
      ∧ s2.phase = SearchPhase.complete
      ∧ s2.phase ≠ SearchPhase.error
      ∧ s2.retryCount = 0
      ∧ s2.searchAttempt = MAX_SEARCH_ATTEMPTS :=
  ⟨⟨fun _ => ⟨"network down", rfl⟩, fun _ => ⟨"understood", rfl⟩,
    fun _ => List.cons_ne_nil _ _, fun _ => ⟨("answer", []), rfl⟩⟩,
   search_fail_run_terminates_complete allSearchFailOracle "q"
    ⟨fun _ => ⟨"network down", rfl⟩, fun _ => ⟨"understood", rfl⟩,
     fun _ => List.cons_ne_nil _ _, fun _ => ⟨("answer", []), rfl⟩⟩⟩

end Claims
